import Mathlib

/-!
Verification of the core reconstruction-and-attribution logic of the FFL
fantasy-football repository: seed assignment, championship-bracket
resolution, consolation ("toilet bowl") partitioning and transaction
value attribution.

The definitions below are a shallow embedding of the Python source:

* `get_playoff_seeds`, `build_tournament_bracket`
  from `fantasy_football_ui/bracket_visualizer.py`;
* the consolation/toilet-bowl filters and round-2 classification
  from `fantasy_football_ui/history_view.py`;
* `parse_sleeper_transactions` (status filter, trade parsing,
  post-pickup stats) from `fantasy_football_ui/transactions_helper.py`;
* `calc_player_stats_after_trade` from `fantasy_football_ui/app.py`.

Python dictionaries are modelled as association lists (first match wins
on lookup, key overwrite in place on insert), Python sets of roster ids
as lists used only through membership, floats as exact rationals, and
`None` as `Option.none`.
-/

namespace FFL

/-- Python dict lookup `d.get(k)` on an association list: the value at the
first occurrence of `k`, if any. -/
def assocGet {α β : Type} [DecidableEq α] (k : α) : List (α × β) → Option β
  | [] => none
  | p :: rest => if p.1 = k then some p.2 else assocGet k rest

/-- Python dict assignment `d[k] = v` on an association list: overwrite the
value at the first occurrence of `k`, otherwise append at the end. -/
def dictInsert (k : Nat) (v : Nat) : List (Nat × Nat) → List (Nat × Nat)
  | [] => [(k, v)]
  | p :: rest => if p.1 = k then (k, v) :: rest else p :: dictInsert k v rest

/-- Python `x in s` for an optional roster id against a list of roster ids;
`None in s` is `False` in the source. -/
def optMem (x : Option Nat) (l : List Nat) : Bool :=
  match x with
  | some v => l.contains v
  | none => false

/-! ## Seed Assigner (`bracket_visualizer.get_playoff_seeds`) -/

/-- One roster as consumed by `get_playoff_seeds`: `roster_id` plus the
`settings` fields `wins`, `fpts` and `fpts_decimal` (each defaulting to 0
in the source). -/
structure RosterInfo where
  roster_id : Nat
  wins : Nat
  fpts : Nat
  fpts_decimal : Nat
deriving Repr, DecidableEq

/-- Points-for of a roster: the source computes
`fpts + fpts_decimal / 100` and uses it only as a sort key; the value is
modelled by the order-isomorphic integer `100 * fpts + fpts_decimal`
(`a + b / 100 ≤ c + d / 100` over the exact rationals iff
`100 * a + b ≤ 100 * c + d`). -/
def rosterPoints (r : RosterInfo) : Nat :=
  100 * r.fpts + r.fpts_decimal

/-- One entry of the `standings` list built by `get_playoff_seeds`. -/
structure Standing where
  roster_id : Nat
  wins : Nat
  points : Nat
deriving Repr, DecidableEq

/-- One `standings` entry of `get_playoff_seeds`. -/
def standingOfRoster (r : RosterInfo) : Standing :=
  { roster_id := r.roster_id, wins := r.wins, points := rosterPoints r }

/-- The `standings` list of `get_playoff_seeds`. -/
def standingsOf (rosters : List RosterInfo) : List Standing :=
  rosters.map standingOfRoster

/-- Comparison `(a.wins, a.points) <= (b.wins, b.points)` on the sort key
used by `standings.sort(key=..., reverse=True)` (lexicographic tuple
comparison). -/
def keyLe (a b : Standing) : Bool :=
  Nat.blt a.wins b.wins || (a.wins == b.wins && decide (a.points ≤ b.points))

/-- Stable insertion step for the descending sort: `x` is placed before the
first element whose key is `<=` the key of `x`, hence after every earlier
element with an equal key — the behaviour of Python's stable
`sort(..., reverse=True)`. -/
def insertStanding (x : Standing) : List Standing → List Standing
  | [] => [x]
  | y :: ys => if keyLe y x then x :: y :: ys else y :: insertStanding x ys

/-- Stable descending sort of the standings by `(wins, points)`, equivalent
to `standings.sort(key=lambda x: (x['wins'], x['points']), reverse=True)`. -/
def sortStandings : List Standing → List Standing
  | [] => []
  | x :: xs => insertStanding x (sortStandings xs)

/-- The `enumerate(standings[:12], 1)` pairs: roster id of each of the first
twelve sorted standings together with its 1-based rank. -/
def seedPairs : Nat → List Standing → List (Nat × Nat)
  | _, [] => []
  | i, s :: rest => (s.roster_id, i) :: seedPairs (i + 1) rest

/-- Seed assignment of `bracket_visualizer.get_playoff_seeds`: sort the
standings by `(wins, points)` descending (stable) and give the first twelve
rosters seeds 1, 2, ….  The `user_lookup` argument of the source is unused
by the computation and omitted.  The resulting dict is an association
list built by repeated `dictInsert`. -/
def get_playoff_seeds (rosters : List RosterInfo) : List (Nat × Nat) :=
  (seedPairs 1 ((sortStandings (standingsOf rosters)).take 12)).foldl
    (fun acc p => dictInsert p.1 p.2 acc) []

/-! ## Bracket data model -/

/-- One flat bracket matchup record as returned by the Sleeper API:
`m` (matchup id), `r` (round), `t1`/`t2` (participants), `w`/`l`
(winner/loser).  Participant and result fields may be absent (`None`). -/
structure BracketMatchup where
  m : Nat
  r : Nat
  t1 : Option Nat
  t2 : Option Nat
  w : Option Nat
  l : Option Nat
deriving Repr, DecidableEq

/-- One structured bracket node produced by `build_tournament_bracket`. -/
structure BracketNode where
  team1_id : Option Nat
  team2_id : Option Nat
  team1_seed : Nat
  team2_seed : Nat
  winner_id : Option Nat
  matchup_id : Nat
deriving Repr, DecidableEq

/-- Python `seed_map.get(team_id)` where `team_id` itself may be `None`. -/
def seedOfOpt (sm : List (Nat × Nat)) : Option Nat → Option Nat
  | none => none
  | some t => assocGet t sm

/-- Python `seed_map.get(team_id, 0)`. -/
def seedOrZero (sm : List (Nat × Nat)) (t : Option Nat) : Nat :=
  (seedOfOpt sm t).getD 0

/-! ## Bracket Resolver (`bracket_visualizer.build_tournament_bracket`) -/

/-- The canonical round-1 pairing order by seed: (1v8), (4v5), (2v7), (3v6). -/
def expectedPairs : List (Nat × Nat) := [(1, 8), (4, 5), (2, 7), (3, 6)]

/-- The round-1 search predicate: the record's two participants carry the
seeds `s1` and `s2`, in either order. -/
def matchesPair (sm : List (Nat × Nat)) (s1 s2 : Nat) (mu : BracketMatchup) : Bool :=
  (seedOfOpt sm mu.t1 == some s1 && seedOfOpt sm mu.t2 == some s2) ||
  (seedOfOpt sm mu.t1 == some s2 && seedOfOpt sm mu.t2 == some s1)

/-- The structured node built from a found round-1 record: normalized so
the record's participant carrying the lower seed `s1` is team1
(bracket_visualizer lines 162–185). -/
def round1Node (sm : List (Nat × Nat)) (s1 s2 : Nat) (mu : BracketMatchup) :
    BracketNode :=
  if seedOfOpt sm mu.t1 == some s1 then
    { team1_id := mu.t1, team2_id := mu.t2, team1_seed := s1,
      team2_seed := s2, winner_id := mu.w, matchup_id := mu.m }
  else
    { team1_id := mu.t2, team2_id := mu.t1, team1_seed := s1,
      team2_seed := s2, winner_id := mu.w, matchup_id := mu.m }

/-- Round-1 loop body of `build_tournament_bracket`: walk the canonical
pairs in order; for each pair take the first matching record, normalize it
so the lower seed is team1, and record its winner (keyed by matchup id)
when present.  A pair with no matching record contributes nothing. -/
def processRound1Go (sm : List (Nat × Nat)) (ms : List BracketMatchup) :
    List (Nat × Nat) → List BracketNode × List (Nat × Nat) →
    List BracketNode × List (Nat × Nat)
  | [], acc => acc
  | (s1, s2) :: ps, acc =>
    match ms.find? (matchesPair sm s1 s2) with
    | none => processRound1Go sm ms ps acc
    | some mu =>
      let winners :=
        match mu.w with
        | some w => dictInsert mu.m w acc.2
        | none => acc.2
      processRound1Go sm ms ps (acc.1 ++ [round1Node sm s1 s2 mu], winners)

/-- Round-1 processing of `build_tournament_bracket` (lines 148–189). -/
def processRound1 (sm : List (Nat × Nat)) (ms : List BracketMatchup) :
    List BracketNode × List (Nat × Nat) :=
  processRound1Go sm ms expectedPairs ([], [])

/-- The structured node built from an admitted later-round record: seeds
looked up with default 0, orientation kept (bracket_visualizer lines
203–211). -/
def laterNode (sm : List (Nat × Nat)) (mu : BracketMatchup) : BracketNode :=
  { team1_id := mu.t1, team2_id := mu.t2,
    team1_seed := seedOrZero sm mu.t1, team2_seed := seedOrZero sm mu.t2,
    winner_id := mu.w, matchup_id := mu.m }

/-- Later-round loop body of `build_tournament_bracket`: a record is
admitted only if both of its participants are winners of the previous
round; admitted records keep their orientation and their winner is
recorded keyed by matchup id. -/
def processLaterGo (sm : List (Nat × Nat)) (prev : List Nat) :
    List BracketMatchup → List BracketNode × List (Nat × Nat) →
    List BracketNode × List (Nat × Nat)
  | [], acc => acc
  | mu :: rest, acc =>
    if optMem mu.t1 prev && optMem mu.t2 prev then
      let winners :=
        match mu.w with
        | some w => dictInsert mu.m w acc.2
        | none => acc.2
      processLaterGo sm prev rest (acc.1 ++ [laterNode sm mu], winners)
    else
      processLaterGo sm prev rest acc

/-- Later-round processing of `build_tournament_bracket` (lines 190–215). -/
def processLaterRound (sm : List (Nat × Nat)) (prev : List Nat)
    (ms : List BracketMatchup) : List BracketNode × List (Nat × Nat) :=
  processLaterGo sm prev ms ([], [])

/-- The record list of one round: `matchups_by_round[round_num]`, empty when
the round is absent. -/
def roundMatchups (mbr : List (Nat × List BracketMatchup)) (r : Nat) :
    List BracketMatchup :=
  (assocGet r mbr).getD []

/-- Per-round result (structured nodes, winner dict) of
`build_tournament_bracket`, expressed as a recursion over the round
number: round 1 is the canonical-pair search, any other round admits
only records between winners of round `r - 1`.  For round 0 the source
reads `round_winners.get(-1, {})`, which is empty. -/
def roundResult (sm : List (Nat × Nat)) (mbr : List (Nat × List BracketMatchup)) :
    Nat → List BracketNode × List (Nat × Nat)
  | 0 => processLaterRound sm [] (roundMatchups mbr 0)
  | 1 => processRound1 sm (roundMatchups mbr 1)
  | r + 2 =>
    processLaterRound sm ((roundResult sm mbr (r + 1)).2.map Prod.snd)
      (roundMatchups mbr (r + 2))

/-- Ascending insertion for sorting the round keys. -/
def insertAsc (x : Nat) : List Nat → List Nat
  | [] => [x]
  | y :: ys => if x ≤ y then x :: y :: ys else y :: insertAsc x ys

/-- Ascending sort of the round keys (`sorted(matchups_by_round.keys())`). -/
def sortAsc : List Nat → List Nat
  | [] => []
  | x :: xs => insertAsc x (sortAsc xs)

/-- The sorted round keys.  Keys of a Python dict are distinct; `dedup`
makes this explicit for the association-list model. -/
def sortedRoundKeys (mbr : List (Nat × List BracketMatchup)) : List Nat :=
  sortAsc (mbr.map Prod.fst).dedup

/-- The main loop of `build_tournament_bracket`: process the rounds in
ascending order, threading the per-round winner dicts. -/
def buildRounds (sm : List (Nat × Nat)) (mbr : List (Nat × List BracketMatchup)) :
    List Nat → List (Nat × List (Nat × Nat)) → List (Nat × List BracketNode)
  | [], _ => []
  | r :: rest, winners =>
    let ms := roundMatchups mbr r
    let res :=
      if r = 1 then processRound1 sm ms
      else processLaterRound sm (((assocGet (r - 1) winners).getD []).map Prod.snd) ms
    (r, res.1) :: buildRounds sm mbr rest (winners ++ [(r, res.2)])

/-- `bracket_visualizer.build_tournament_bracket` (lines 120–219): the
structured bracket, an association list from round number to the list of
structured nodes of that round (possibly empty, as in the source). -/
def build_tournament_bracket (mbr : List (Nat × List BracketMatchup))
    (sm : List (Nat × Nat)) : List (Nat × List BracketNode) :=
  if mbr.isEmpty then [] else buildRounds sm mbr (sortedRoundKeys mbr) []

/-- A roster appears as a participant of a structured node. -/
def nodeHasParticipant (x : Nat) (n : BracketNode) : Bool :=
  n.team1_id == some x || n.team2_id == some x

/-- A roster appears as the loser of a structured node: it participates,
the node has a recorded winner, and the winner is someone else. -/
def nodeLoses (x : Nat) (n : BracketNode) : Bool :=
  nodeHasParticipant x n && n.winner_id.isSome && !(n.winner_id == some x)

/-- A raw record whose recorded winner, if any, is one of its own
participants. -/
def winnerIsParticipant (mu : BracketMatchup) : Bool :=
  match mu.w with
  | some w => mu.t1 == some w || mu.t2 == some w
  | none => true

/-- A roster loses a raw record: it participates, the record carries a
winner, and the winner is someone else. -/
def losesRecB (x : Nat) (mu : BracketMatchup) : Bool :=
  (mu.t1 == some x || mu.t2 == some x) && mu.w.isSome && !(mu.w == some x)

/-- No roster is recorded both as a winner and as a loser among the records
of one round. -/
def roundNoWinLoss (ms : List BracketMatchup) : Bool :=
  ms.all fun mu =>
    match mu.w with
    | some w => ms.all fun mu' => !(losesRecB w mu')
    | none => true

/-- Consistency of the flat bracket feed: in every round, each record's
winner is one of its participants, and no roster both wins a record and
loses a record of the same round. -/
def bracketInputConsistent (mbr : List (Nat × List BracketMatchup)) : Bool :=
  mbr.all fun rm => rm.2.all winnerIsParticipant && roundNoWinLoss rm.2

/-! ## Consolation Partitioner (`history_view.display_history_view`) -/

/-- Toilet-bowl filter (history_view lines 110–120 and 595–605): keep a
record only if both participants' seeds lie in [9, 12]; a missing seed
counts as 0 and fails the range test. -/
def toiletBowlFilter (sm : List (Nat × Nat)) (ms : List BracketMatchup) :
    List BracketMatchup :=
  ms.filter fun mu =>
    (9 ≤ seedOrZero sm mu.t1 && seedOrZero sm mu.t1 ≤ 12) &&
    (9 ≤ seedOrZero sm mu.t2 && seedOrZero sm mu.t2 ≤ 12)

/-- Middle-tier ("consolation") filter (history_view lines 755–770): keep a
record only if both participants' seeds lie in [5, 8]. -/
def consolationFilter (sm : List (Nat × Nat)) (ms : List BracketMatchup) :
    List BracketMatchup :=
  ms.filter fun mu =>
    (5 ≤ seedOrZero sm mu.t1 && seedOrZero sm mu.t1 ≤ 8) &&
    (5 ≤ seedOrZero sm mu.t2 && seedOrZero sm mu.t2 ≤ 8)

/-- The `round1_winners` set of the lower tier: winner ids recorded by the
round-1 lower-tier matchups (history_view lines 132–141). -/
def round1WinnersOf (ms : List BracketMatchup) : List Nat :=
  ms.filterMap (·.w)

/-- The `round1_losers` set of the lower tier: loser ids recorded by the
round-1 lower-tier matchups. -/
def round1LosersOf (ms : List BracketMatchup) : List Nat :=
  ms.filterMap (·.l)

/-- Both participants of a record are members of a given roster-id set. -/
def bothIn (s : List Nat) (mu : BracketMatchup) : Bool :=
  optMem mu.t1 s && optMem mu.t2 s

/-- One step of the round-2 split of the lower tier (history_view lines
637–644): a matchup whose participants are both round-1 winners goes to
the championship list; otherwise, if both participants are round-1 losers
it goes to the last-place list; anything else is dropped. -/
def classifyStep (winners losers : List Nat)
    (acc : List BracketMatchup × List BracketMatchup) (mu : BracketMatchup) :
    List BracketMatchup × List BracketMatchup :=
  if bothIn winners mu then (acc.1 ++ [mu], acc.2)
  else if bothIn losers mu then (acc.1, acc.2 ++ [mu])
  else acc

/-- Round-2 split of the lower tier (history_view lines 634–644). -/
def classifyToiletBowlRound2 (winners losers : List Nat)
    (ms : List BracketMatchup) : List BracketMatchup × List BracketMatchup :=
  ms.foldl (classifyStep winners losers) ([], [])

/-- One step of the champion/last-place scan (history_view lines 144–164):
when both participants are in the given set and the selected result field
is recorded, that id replaces the accumulator. -/
def selectStep (sel : BracketMatchup → Option Nat) (s : List Nat)
    (acc : Option Nat) (mu : BracketMatchup) : Option Nat :=
  if bothIn s mu then
    match sel mu with
    | some x => some x
    | none => acc
  else acc

/-- Tier champion (history_view lines 143–155): scanning the round-2
lower-tier matchups, whenever both participants are round-1 winners and a
winner is recorded, that winner becomes the toilet-bowl champion (the
source resolves the id to a team name; the id is kept here). -/
def toiletBowlChampion (winners : List Nat) (round2 : List BracketMatchup) :
    Option Nat :=
  round2.foldl (selectStep (fun mu => mu.w) winners) none

/-- Toilet-bowl loser (history_view lines 157–164): scanning the round-2
lower-tier matchups, whenever both participants are round-1 losers and a
loser is recorded, that loser becomes the toilet-bowl loser. -/
def toiletBowlLastLoser (losers : List Nat) (round2 : List BracketMatchup) :
    Option Nat :=
  round2.foldl (selectStep (fun mu => mu.l) losers) none

/-! ## Transaction Value Attributor
(`transactions_helper.parse_sleeper_transactions`, `app.py`
`calc_player_stats_after_trade`) -/

/-- One roster's snapshot for one week: the starters list and the
player-to-points map (`players_points`).  Player ids are strings, as in
the source; point values are Python floats, modelled as exact rationals. -/
structure TeamWeek where
  starters : List String
  players_points : List (String × ℚ)
deriving Repr, DecidableEq

/-- The season's weekly snapshots:
`matchup_data[week][roster_id] = TeamWeek`. -/
def MatchupData : Type := List (Nat × List (Nat × TeamWeek))

/-- Python `week_num in matchup_data and roster_id in matchup_data[week_num]`
followed by the two indexings. -/
def lookupTeamWeek (md : MatchupData) (w rid : Nat) : Option TeamWeek :=
  (assocGet w md).bind fun wm => assocGet rid wm

/-- Python `range(a, 19)`: the week numbers `a, a+1, …, 18`. -/
def weeksFrom (a : Nat) : List Nat := List.range' a (19 - a)

/-- One week of the waiver-idiom loop (transactions_helper lines 198–214):
if the week has a snapshot for the roster, count the week when the player
is in its starters list, and add the player's recorded points when they
are positive. -/
def waiverStep (md : MatchupData) (rid : Nat) (pid : String) (acc : ℚ × Nat)
    (w : Nat) : ℚ × Nat :=
  match lookupTeamWeek md w rid with
  | none => acc
  | some tm =>
    let games := if pid ∈ tm.starters then acc.2 + 1 else acc.2
    let total :=
      match assocGet pid tm.players_points with
      | some p => if 0 < p then acc.1 + p else acc.1
      | none => acc.1
    (total, games)

/-- Post-pickup stats of the waiver idiom (transactions_helper lines
193–218): fold the week step over the weeks strictly after the pickup
week (`range(week + 1, 19)`). -/
def waiverPickupStats (md : MatchupData) (rid : Nat) (pid : String)
    (week : Nat) : ℚ × Nat :=
  (weeksFrom (week + 1)).foldl (waiverStep md rid pid) (0, 0)

/-- The reported post-pickup stats: `'N/A'` (here `none`) unless at least
one of the two counters is positive (transactions_helper lines 216–218;
the display-only `round(·, 2)` is not modelled). -/
def waiverStatsReported (md : MatchupData) (rid : Nat) (pid : String)
    (week : Nat) : Option (ℚ × Nat) :=
  let s := waiverPickupStats md rid pid week
  if 0 < s.1 ∨ 0 < s.2 then some s else none

/-- One week of the trade-idiom loop (app.py lines 1533–1549), threading an
accumulator (lineup points, bench points, starts): a week contributes only
if the player has a recorded positive point value; the points go to the
lineup sum (and the start counter) if the player is in the starters list,
to the bench sum otherwise. -/
def tradeStep (md : MatchupData) (rid : Nat) (pid : String) (acc : ℚ × ℚ × Nat)
    (w : Nat) : ℚ × ℚ × Nat :=
  match lookupTeamWeek md w rid with
  | none => acc
  | some tm =>
    match assocGet pid tm.players_points with
    | some p =>
      if 0 < p then
        if pid ∈ tm.starters then (acc.1 + p, acc.2.1, acc.2.2 + 1)
        else (acc.1, acc.2.1 + p, acc.2.2)
      else acc
    | none => acc

/-- Per-player week scan of `calc_player_stats_after_trade`: fold the week
step over `range(trade_week, 19)` — the trade week itself included, as in
the source. -/
def tradeWeekScan (md : MatchupData) (rid : Nat) (pid : String)
    (tradeWeek : Nat) (acc : ℚ × ℚ × Nat) : ℚ × ℚ × Nat :=
  (weeksFrom tradeWeek).foldl (tradeStep md rid pid) acc

/-- `calc_player_stats_after_trade` (app.py lines 1521–1551): fold the
per-player week scan over the received players, skipping names the
player-id catalog cannot resolve. -/
def calc_player_stats_after_trade (pim : List (String × String))
    (md : MatchupData) (players_list : List String) (rid : Nat)
    (tradeWeek : Nat) : ℚ × ℚ × Nat :=
  players_list.foldl
    (fun acc name =>
      match assocGet name pim with
      | none => acc
      | some pid => tradeWeekScan md rid pid tradeWeek acc)
    (0, 0, 0)

/-! ## Transaction parsing (`transactions_helper.parse_sleeper_transactions`) -/

/-- One raw Sleeper transaction.  `adds`/`drops` map an entity id (player id
or team-defense abbreviation) to a roster id.  The source estimates the
transaction week from the `created` timestamp (a heuristic, see spec §9);
the week is carried here as a field. -/
structure SleeperTransaction where
  ttype : String
  status : String
  adds : List (String × Nat)
  drops : List (String × Nat)
  waiver_bid : Nat
  week : Nat
deriving Repr, DecidableEq

/-- One parsed trade (name-formatting fields of the source that no claim
touches are omitted): status, the (truncated) team-name list, and the
formatted adds/drops (player name to team name). -/
structure TradeData where
  status : String
  teams : List String
  adds_fmt : List (String × String)
  drops_fmt : List (String × String)
deriving Repr, DecidableEq

/-- One parsed waiver/free-agent pickup. -/
structure WaiverData where
  ttype : String
  status : String
  team : String
  player_id : String
  faab_bid : Nat
  week : Nat
  stats : Option (ℚ × Nat)
deriving Repr, DecidableEq

/-- The output of `parse_sleeper_transactions`. -/
structure ParsedTransactions where
  trades : List TradeData
  waivers : List WaiverData
  add_drops : List WaiverData
deriving Repr, DecidableEq

/-- Python `list(set(xs))` for roster ids, keeping first occurrences (set
iteration order is unspecified in Python; no claim depends on it). -/
def dedupFirst (xs : List Nat) : List Nat :=
  xs.foldl (fun acc x => if x ∈ acc then acc else acc ++ [x]) []

/-- Team name of a roster id: owner's display name when the roster and user
are known, otherwise the `"Team <id>"` fallback (the alias normalization
of `team_name_utils` is display-only and not modelled). -/
def rosterTeamName (roster_to_user : List (Nat × String))
    (user_lookup : List (String × String)) (rid : Nat) : String :=
  match assocGet rid roster_to_user with
  | some uid => (assocGet uid user_lookup).getD ("Team " ++ toString rid)
  | none => "Team " ++ toString rid

/-- Player display name from the catalog, with the `"Player <id>"`
fallback. -/
def playerDisplayName (catalog : List (String × String)) (pid : String) : String :=
  (assocGet pid catalog).getD ("Player " ++ pid)

/-- The trade branch of `parse_sleeper_transactions` (lines 56–109).
Collect the distinct roster ids of the adds and drops; skip the trade if
fewer than two are involved; otherwise keep the names of the FIRST TWO
rosters only (`list(roster_ids)[:2]`) and format the adds and drops. -/
def parseTrade (roster_to_user : List (Nat × String))
    (user_lookup : List (String × String)) (catalog : List (String × String))
    (t : SleeperTransaction) : Option TradeData :=
  let roster_ids := dedupFirst (t.adds.map Prod.snd ++ t.drops.map Prod.snd)
  if roster_ids.length < 2 then none
  else
    some
      { status := t.status
        teams := (roster_ids.take 2).map (rosterTeamName roster_to_user user_lookup)
        adds_fmt := t.adds.map fun pr =>
          (playerDisplayName catalog pr.1, rosterTeamName roster_to_user user_lookup pr.2)
        drops_fmt := t.drops.map fun pr =>
          (playerDisplayName catalog pr.1, rosterTeamName roster_to_user user_lookup pr.2) }

/-- The waiver/free-agent branch of `parse_sleeper_transactions` (lines
111–244): one `WaiverData` per added entity, with the post-pickup stats
computed when matchup data is available ( `'N/A'` otherwise). -/
def parseWaiverAdds (roster_to_user : List (Nat × String))
    (user_lookup : List (String × String)) (md : MatchupData)
    (t : SleeperTransaction) : List WaiverData :=
  t.adds.map fun pr =>
    { ttype := t.ttype
      status := t.status
      team := rosterTeamName roster_to_user user_lookup pr.2
      player_id := pr.1
      faab_bid := t.waiver_bid
      week := t.week
      stats := if md.isEmpty then none else waiverStatsReported md pr.2 pr.1 t.week }

/-- The statuses admitted by the parser (transactions_helper line 53). -/
def admittedStatuses : List String := ["complete", "approved", "processed"]

/-- `parse_sleeper_transactions` (transactions_helper lines 12–250):
transactions whose status is not complete/approved/processed are skipped
entirely; trades go through `parseTrade`; waiver, free-agent and
commissioner transactions produce one record per added entity, routed to
`waivers` when the type is `waiver` with a positive bid and to
`add_drops` otherwise.  (The source's skip of null transaction entries is
vacuous in this typed model, and its season guard is modelled as always
satisfied.) -/
def parse_sleeper_transactions (roster_to_user : List (Nat × String))
    (user_lookup : List (String × String)) (catalog : List (String × String))
    (md : MatchupData) : List SleeperTransaction → ParsedTransactions
  | [] => { trades := [], waivers := [], add_drops := [] }
  | t :: ts =>
    let rest := parse_sleeper_transactions roster_to_user user_lookup catalog md ts
    if t.status ∉ admittedStatuses then rest
    else if t.ttype = "trade" then
      match parseTrade roster_to_user user_lookup catalog t with
      | some td => { rest with trades := td :: rest.trades }
      | none => rest
    else if t.ttype = "waiver" ∨ t.ttype = "free_agent" ∨ t.ttype = "commissioner" then
      let ws := parseWaiverAdds roster_to_user user_lookup md t
      let routed := ws.partition fun w => w.ttype = "waiver" ∧ 0 < w.faab_bid
      { rest with
        waivers := routed.1 ++ rest.waivers
        add_drops := routed.2 ++ rest.add_drops }
    else rest

/-- The app-side guard on parsed trades (app.py lines 1494–1496): only
trades whose team list has exactly two entries are analysed. -/
def tradeAttributable (td : TradeData) : Bool :=
  td.teams.length == 2

/-! ## Week-wise observables used to characterize the attribution folds -/

/-- The player's recorded points for one week when they are positive,
otherwise 0 (the source only ever accumulates positive recorded values). -/
def posPointsAt (md : MatchupData) (rid : Nat) (pid : String) (wk : Nat) : ℚ :=
  match lookupTeamWeek md wk rid with
  | some tm =>
    match assocGet pid tm.players_points with
    | some p => if 0 < p then p else 0
    | none => 0
  | none => 0

/-- The week has a snapshot for the roster and the player appears in its
starters list. -/
def startedAt (md : MatchupData) (rid : Nat) (pid : String) (wk : Nat) : Bool :=
  match lookupTeamWeek md wk rid with
  | some tm => pid ∈ tm.starters
  | none => false

/-- The week has a snapshot for the roster and the player has a recorded
positive point value in it. -/
def positivePointsAt (md : MatchupData) (rid : Nat) (pid : String) (wk : Nat) :
    Bool :=
  match lookupTeamWeek md wk rid with
  | some tm =>
    match assocGet pid tm.players_points with
    | some p => decide (0 < p)
    | none => false
  | none => false

/-- Lineup points of the trade idiom as a week-indexed sum: positive
recorded points over the weeks from the trade week through 18 in which the
player starts. -/
def lineupFromWeek (md : MatchupData) (rid : Nat) (pid : String) (tw : Nat) : ℚ :=
  ((weeksFrom tw).map fun wk =>
    if startedAt md rid pid wk then posPointsAt md rid pid wk else 0).sum

/-- Bench points of the trade idiom as a week-indexed sum: positive
recorded points over the weeks from the trade week through 18 in which the
player does not start. -/
def benchFromWeek (md : MatchupData) (rid : Nat) (pid : String) (tw : Nat) : ℚ :=
  ((weeksFrom tw).map fun wk =>
    if startedAt md rid pid wk then 0 else posPointsAt md rid pid wk).sum

/-- Starts of the trade idiom as a week count: weeks from the trade week
through 18 in which the player starts with a recorded positive point
value. -/
def startsFromWeek (md : MatchupData) (rid : Nat) (pid : String) (tw : Nat) : Nat :=
  ((weeksFrom tw).filter fun wk =>
    startedAt md rid pid wk && positivePointsAt md rid pid wk).length

/-- Modelled from the claim's words (spec §4.4): lineup points as the sum of
the player's recorded points over the weeks STRICTLY AFTER the transaction
week in which the player appears in the roster's starters list, with no
positivity filter.  Used only to compare the claimed formula with the
code. -/
def lineupPointsClaim (md : MatchupData) (rid : Nat) (pid : String) (w : Nat) : ℚ :=
  ((weeksFrom (w + 1)).map fun wk =>
    match lookupTeamWeek md wk rid with
    | some tm =>
      if pid ∈ tm.starters then (assocGet pid tm.players_points).getD 0 else 0
    | none => 0).sum

/-! ## Concrete season data used by witnesses and counterexamples -/

/-- Snapshots of the spec's worked example: the player starts with 20 points
in week 4, is benched with 8 recorded points in week 5, and has no data in
any other week. -/
def mdC4 : MatchupData :=
  [(4, [(1, ⟨["P"], [("P", 20)]⟩)]), (5, [(1, ⟨[], [("P", 8)]⟩)])]

/-- A one-entry player-name catalog for the worked example. -/
def pimC4 : List (String × String) := [("Player P", "P")]

/-- Snapshots separating the code from the claimed formula: the player
starts with 20 points in the trade week itself (week 3) and starts with -3
recorded points in week 4. -/
def mdC4x : MatchupData :=
  [(3, [(1, ⟨["P"], [("P", 20)]⟩)]), (4, [(1, ⟨["P"], [("P", -3)]⟩)])]

/-- A one-entry player-name catalog for the C4 counterexample. -/
def pimC4x : List (String × String) := [("N", "P")]

/-- Snapshots for the idiom-consistency witness: week-4 start with 20
points, week-5 bench with 8 points, nothing in the transaction week. -/
def mdC5 : MatchupData :=
  [(4, [(1, ⟨["P"], [("P", 20)]⟩)]), (5, [(1, ⟨[], [("P", 8)]⟩)])]

/-- Snapshots on which the two idioms disagree: the player starts with 20
points in the transaction week itself. -/
def mdC5x : MatchupData := [(3, [(1, ⟨["P"], [("P", 20)]⟩)])]

/-- A completed trade moving players between three distinct rosters. -/
def txC8 : SleeperTransaction :=
  { ttype := "trade", status := "complete",
    adds := [("A", 1), ("B", 2), ("C", 3)], drops := [], waiver_bid := 0,
    week := 1 }

/-- Contradictory round-1 lower-tier records: two stray records of the same
pairing with opposite outcomes, so both rosters are round-1 winners and
round-1 losers at once. -/
def r1C3 : List BracketMatchup :=
  [{ m := 1, r := 1, t1 := some 1, t2 := some 2, w := some 1, l := some 2 },
   { m := 2, r := 1, t1 := some 1, t2 := some 2, w := some 2, l := some 1 }]

/-- The round-2 record between the two rosters of `r1C3`. -/
def ms2C3 : List BracketMatchup :=
  [{ m := 3, r := 2, t1 := some 1, t2 := some 2, w := some 1, l := some 2 }]

/-- A well-formed lower-tier round 1: 9 beats 12 and 10 beats 11. -/
def r1C3w : List BracketMatchup :=
  [{ m := 1, r := 1, t1 := some 9, t2 := some 12, w := some 9, l := some 12 },
   { m := 2, r := 1, t1 := some 10, t2 := some 11, w := some 10, l := some 11 }]

/-- The matching lower-tier round 2: winners 9 v 10 (9 wins) and losers
12 v 11 (11 wins, 12 loses). -/
def ms2C3w : List BracketMatchup :=
  [{ m := 3, r := 2, t1 := some 9, t2 := some 10, w := some 9, l := some 10 },
   { m := 4, r := 2, t1 := some 12, t2 := some 11, w := some 11, l := some 12 }]

/-- Thirteen rosters with identical records and distinct identifiers. -/
def rostersC6 : List RosterInfo :=
  [⟨1, 0, 0, 0⟩, ⟨2, 0, 0, 0⟩, ⟨3, 0, 0, 0⟩, ⟨4, 0, 0, 0⟩, ⟨5, 0, 0, 0⟩,
   ⟨6, 0, 0, 0⟩, ⟨7, 0, 0, 0⟩, ⟨8, 0, 0, 0⟩, ⟨9, 0, 0, 0⟩, ⟨10, 0, 0, 0⟩,
   ⟨11, 0, 0, 0⟩, ⟨12, 0, 0, 0⟩, ⟨13, 0, 0, 0⟩]

/-- Four rosters with strictly decreasing records. -/
def rostersC6w : List RosterInfo :=
  [⟨1, 10, 1500, 25⟩, ⟨2, 8, 1400, 0⟩, ⟨3, 8, 1350, 55⟩, ⟨4, 2, 900, 10⟩]

/-- Rosters 7 and 9 tied on wins and points (listed in that order),
roster 2 with a better record. -/
def rostersC9 : List RosterInfo :=
  [⟨7, 5, 1000, 0⟩, ⟨9, 5, 1000, 0⟩, ⟨2, 6, 0, 0⟩]

/-- An identity seed map on rosters 1–8. -/
def smC1 : List (Nat × Nat) :=
  [(1, 1), (2, 2), (3, 3), (4, 4), (5, 5), (6, 6), (7, 7), (8, 8)]

/-- A complete, consistent championship feed: canonical round 1, semifinals
between the round-1 winners, and the final. -/
def mbrC1 : List (Nat × List BracketMatchup) :=
  [(1, [{ m := 1, r := 1, t1 := some 1, t2 := some 8, w := some 1, l := some 8 },
        { m := 2, r := 1, t1 := some 4, t2 := some 5, w := some 4, l := some 5 },
        { m := 3, r := 1, t1 := some 2, t2 := some 7, w := some 2, l := some 7 },
        { m := 4, r := 1, t1 := some 3, t2 := some 6, w := some 3, l := some 6 }]),
   (2, [{ m := 5, r := 2, t1 := some 1, t2 := some 4, w := some 1, l := some 4 },
        { m := 6, r := 2, t1 := some 2, t2 := some 3, w := some 2, l := some 3 }]),
   (3, [{ m := 7, r := 3, t1 := some 1, t2 := some 2, w := some 1, l := some 2 }])]

/-- The same feed with two stray duplicate semifinal records carrying
contradictory winners (1 v 4 recorded once as won by 1 and once by 4), and
a final between roster 4 and roster 2. -/
def mbrC1x : List (Nat × List BracketMatchup) :=
  [(1, [{ m := 1, r := 1, t1 := some 1, t2 := some 8, w := some 1, l := some 8 },
        { m := 2, r := 1, t1 := some 4, t2 := some 5, w := some 4, l := some 5 },
        { m := 3, r := 1, t1 := some 2, t2 := some 7, w := some 2, l := some 7 },
        { m := 4, r := 1, t1 := some 3, t2 := some 6, w := some 3, l := some 6 }]),
   (2, [{ m := 5, r := 2, t1 := some 1, t2 := some 4, w := some 1, l := some 4 },
        { m := 6, r := 2, t1 := some 1, t2 := some 4, w := some 4, l := some 1 },
        { m := 7, r := 2, t1 := some 2, t2 := some 3, w := some 2, l := some 3 }]),
   (3, [{ m := 8, r := 3, t1 := some 4, t2 := some 2, w := some 4, l := some 2 }])]

/-- An identity seed map on rosters 1–8 (round-1 pairing examples). -/
def smC2 : List (Nat × Nat) :=
  [(1, 1), (2, 2), (3, 3), (4, 4), (5, 5), (6, 6), (7, 7), (8, 8)]

/-- A full canonical round 1 (all four pairings present, given in scrambled
order). -/
def mbrC2w : List (Nat × List BracketMatchup) :=
  [(1, [{ m := 3, r := 1, t1 := some 7, t2 := some 2, w := some 2, l := some 7 },
        { m := 1, r := 1, t1 := some 1, t2 := some 8, w := some 1, l := some 8 },
        { m := 4, r := 1, t1 := some 3, t2 := some 6, w := some 3, l := some 6 },
        { m := 2, r := 1, t1 := some 5, t2 := some 4, w := some 4, l := some 5 }]),
   (2, [])]

/-- Partial input containing only the 1 v 8 record. -/
def mbrC2x : List (Nat × List BracketMatchup) :=
  [(1, [{ m := 1, r := 1, t1 := some 1, t2 := some 8, w := some 1, l := some 8 }])]

/-- An identity seed map on rosters 1–12. -/
def smC7 : List (Nat × Nat) :=
  [(1, 1), (2, 2), (3, 3), (4, 4), (5, 5), (6, 6), (7, 7), (8, 8), (9, 9),
   (10, 10), (11, 11), (12, 12)]

/-- A consolation feed: one toilet-bowl record (9 v 12), one middle-tier
record (5 v 8) and one mixed-range record (6 v 9). -/
def msC7 : List BracketMatchup :=
  [{ m := 1, r := 1, t1 := some 9, t2 := some 12, w := some 9, l := some 12 },
   { m := 2, r := 1, t1 := some 5, t2 := some 8, w := some 5, l := some 8 },
   { m := 3, r := 1, t1 := some 6, t2 := some 9, w := none, l := none }]

end FFL

namespace FFL

/-! ## Characterizations of the attribution folds -/

theorem tradeStep_eq (md : MatchupData) (rid : Nat) (pid : String)
    (acc : ℚ × ℚ × Nat) (w : Nat) :
    tradeStep md rid pid acc w =
      (acc.1 + (if startedAt md rid pid w then posPointsAt md rid pid w else 0),
       acc.2.1 + (if startedAt md rid pid w then 0 else posPointsAt md rid pid w),
       acc.2.2 +
         (if startedAt md rid pid w && positivePointsAt md rid pid w then 1 else 0)) := by
  unfold tradeStep startedAt posPointsAt positivePointsAt
  cases hlw : lookupTeamWeek md w rid with
  | none => simp
  | some tm =>
    cases hpp : assocGet pid tm.players_points with
    | none => simp [hpp]
    | some p =>
      by_cases hp : 0 < p
      · by_cases hs : pid ∈ tm.starters
        · simp [hpp, hp, hs]
        · simp [hpp, hp, hs]
      · by_cases hs : pid ∈ tm.starters
        · simp [hpp, hp, hs]
        · simp [hpp, hp, hs]

theorem foldl_tradeStep (md : MatchupData) (rid : Nat) (pid : String)
    (ws : List Nat) : ∀ acc : ℚ × ℚ × Nat,
    ws.foldl (tradeStep md rid pid) acc =
      (acc.1 +
         ((ws.map fun wk =>
             if startedAt md rid pid wk then posPointsAt md rid pid wk else 0).sum),
       acc.2.1 +
         ((ws.map fun wk =>
             if startedAt md rid pid wk then 0 else posPointsAt md rid pid wk).sum),
       acc.2.2 +
         ((ws.filter fun wk =>
             startedAt md rid pid wk && positivePointsAt md rid pid wk).length)) := by
  induction ws with
  | nil => intro acc; simp
  | cons w ws ih =>
    intro acc
    rw [List.foldl_cons, ih, tradeStep_eq]
    cases hs : startedAt md rid pid w <;>
      cases hpv : positivePointsAt md rid pid w <;>
      simp [List.filter_cons, hs, hpv, add_assoc, Nat.add_comm 1, Nat.add_left_comm]

theorem tradeWeekScan_closed (md : MatchupData) (rid : Nat) (pid : String)
    (tw : Nat) :
    tradeWeekScan md rid pid tw (0, 0, 0) =
      (lineupFromWeek md rid pid tw, benchFromWeek md rid pid tw,
       startsFromWeek md rid pid tw) := by
  rw [tradeWeekScan, foldl_tradeStep, lineupFromWeek, benchFromWeek, startsFromWeek]
  simp

theorem waiverStep_eq (md : MatchupData) (rid : Nat) (pid : String)
    (acc : ℚ × Nat) (w : Nat) :
    waiverStep md rid pid acc w =
      (acc.1 + posPointsAt md rid pid w,
       acc.2 + (if startedAt md rid pid w then 1 else 0)) := by
  unfold waiverStep startedAt posPointsAt
  cases hlw : lookupTeamWeek md w rid with
  | none => simp
  | some tm =>
    cases hpp : assocGet pid tm.players_points with
    | none => by_cases hs : pid ∈ tm.starters <;> simp [hpp, hs]
    | some p =>
      by_cases hp : 0 < p
      · by_cases hs : pid ∈ tm.starters <;> simp [hpp, hp, hs]
      · by_cases hs : pid ∈ tm.starters <;> simp [hpp, hp, hs]

theorem foldl_waiverStep (md : MatchupData) (rid : Nat) (pid : String)
    (ws : List Nat) : ∀ acc : ℚ × Nat,
    ws.foldl (waiverStep md rid pid) acc =
      (acc.1 + ((ws.map (posPointsAt md rid pid)).sum),
       acc.2 + ((ws.filter (startedAt md rid pid)).length)) := by
  induction ws with
  | nil => intro acc; simp
  | cons w ws ih =>
    intro acc
    rw [List.foldl_cons, ih, waiverStep_eq]
    cases hs : startedAt md rid pid w <;>
      simp [List.filter_cons, hs, add_assoc, Nat.add_comm 1]

theorem waiverPickupStats_closed (md : MatchupData) (rid : Nat) (pid : String)
    (week : Nat) :
    waiverPickupStats md rid pid week =
      (((weeksFrom (week + 1)).map (posPointsAt md rid pid)).sum,
       ((weeksFrom (week + 1)).filter (startedAt md rid pid)).length) := by
  rw [waiverPickupStats, foldl_waiverStep]
  simp

theorem sum_ite_split (l : List Nat) (s : Nat → Bool) (f : Nat → ℚ) :
    ((l.map fun wk => if s wk then f wk else 0).sum) +
      ((l.map fun wk => if s wk then 0 else f wk).sum) = (l.map f).sum := by
  induction l with
  | nil => simp
  | cons w l ih =>
    cases hs : s w <;> simp [hs] <;> linarith [ih]

theorem weeksFrom_cons (a : Nat) (h : a < 19) :
    weeksFrom a = a :: weeksFrom (a + 1) := by
  unfold weeksFrom
  have h19 : 19 - a = (19 - (a + 1)) + 1 := by omega
  rw [h19, List.range'_succ]

theorem posPointsAt_of_not_positive (md : MatchupData) (rid : Nat) (pid : String)
    (w : Nat) (h : positivePointsAt md rid pid w = false) :
    posPointsAt md rid pid w = 0 := by
  unfold positivePointsAt at h
  cases hlw : lookupTeamWeek md w rid with
  | none => simp [posPointsAt, hlw]
  | some tm =>
    simp only [hlw] at h
    cases hpp : assocGet pid tm.players_points with
    | none => simp [posPointsAt, hlw, hpp]
    | some p =>
      simp only [hpp] at h
      simp at h
      simp [posPointsAt, hlw, hpp, h]

theorem filter_bool_congr (l : List Nat) (p q : Nat → Bool)
    (h : ∀ x ∈ l, p x = q x) : l.filter p = l.filter q := by
  induction l with
  | nil => rfl
  | cons x l ih =>
    have hx := h x (List.mem_cons_self x l)
    have ht := ih fun y hy => h y (List.mem_cons_of_mem x hy)
    simp [List.filter_cons, hx, ht]

theorem weeksFrom_nil (a : Nat) (h : 19 ≤ a) : weeksFrom a = [] := by
  unfold weeksFrom
  rw [Nat.sub_eq_zero_of_le h]
  rfl

/-! ## Claim C4: trade-side value attribution -/

/-- C4 (amended): for an acquired player resolved through the player-id
catalog, `calc_player_stats_after_trade` yields exactly (1) the sum of the
player's recorded positive points over the weeks from the trade week
through 18 in which the player starts, (2) the same sum over the weeks in
which the player does not start, and (3) the number of weeks counted
toward (1).  Unlike the claim's formula, the scan starts at the trade week
itself and skips weeks without a recorded positive point value. -/
theorem C4_trade_attribution_characterization (pim : List (String × String))
    (md : MatchupData) (name pid : String) (rid tw : Nat)
    (h : assocGet name pim = some pid) :
    calc_player_stats_after_trade pim md [name] rid tw =
      (lineupFromWeek md rid pid tw, benchFromWeek md rid pid tw,
       startsFromWeek md rid pid tw) := by
  unfold calc_player_stats_after_trade
  simp only [List.foldl_cons, List.foldl_nil, h]
  exact tradeWeekScan_closed md rid pid tw

/-- C4 witness: on the spec's worked example (player added in week 3,
week-4 start with 20 points, week-5 bench with 8 recorded points, no later
data) the characterization applies and the attribution is
lineup 20, bench 8, starts 1. -/
theorem C4_witness :
    calc_player_stats_after_trade pimC4 mdC4 ["Player P"] 1 3 =
      (lineupFromWeek mdC4 1 "P" 3, benchFromWeek mdC4 1 "P" 3,
       startsFromWeek mdC4 1 "P" 3) ∧
    calc_player_stats_after_trade pimC4 mdC4 ["Player P"] 1 3 = (20, 8, 1) := by
  have h := C4_trade_attribution_characterization pimC4 mdC4 "Player P" "P" 1 3
    (by decide)
  refine ⟨h, ?_⟩
  rw [h]
  have hr : weeksFrom 3 = [3, 4, 5, 6, 7, 8, 9, 10, 11, 12, 13, 14, 15, 16, 17, 18] := by
    decide
  norm_num [lineupFromWeek, benchFromWeek, startsFromWeek, hr, startedAt,
    posPointsAt, positivePointsAt, lookupTeamWeek, mdC4, assocGet]

/-- C4 counterexample: with a week-3 start worth 20 points in the trade
week itself and a week-4 start with recorded -3 points, the code returns
lineup 20 while the claim's formula (weeks strictly after week 3, no
positivity filter) yields -3. -/
theorem C4_counterexample_trade_week_and_sign :
    (calc_player_stats_after_trade pimC4x mdC4x ["N"] 1 3).1 = 20 ∧
    lineupPointsClaim mdC4x 1 "P" 3 = -3 ∧
    (calc_player_stats_after_trade pimC4x mdC4x ["N"] 1 3).1 ≠
      lineupPointsClaim mdC4x 1 "P" 3 := by
  have hr3 : weeksFrom 3 = [3, 4, 5, 6, 7, 8, 9, 10, 11, 12, 13, 14, 15, 16, 17, 18] := by
    decide
  have hr4 : weeksFrom 4 = [4, 5, 6, 7, 8, 9, 10, 11, 12, 13, 14, 15, 16, 17, 18] := by
    decide
  have h1 : (calc_player_stats_after_trade pimC4x mdC4x ["N"] 1 3).1 = 20 := by
    norm_num [calc_player_stats_after_trade, tradeWeekScan, hr3, tradeStep,
      lookupTeamWeek, mdC4x, pimC4x, assocGet]
  have h2 : lineupPointsClaim mdC4x 1 "P" 3 = -3 := by
    norm_num [lineupPointsClaim, hr4, lookupTeamWeek, mdC4x, assocGet]
  exact ⟨h1, h2, by rw [h1, h2]; norm_num⟩

/-! ## Claim C5: consistency of the two attribution idioms -/

/-- C5 (amended): the waiver idiom accumulates over the weeks strictly
after the transaction week while the trade idiom starts at the transaction
week itself; the two agree — waiver total points = trade lineup + bench
points and waiver games-started = trade starts — provided the player has
no recorded positive points in the transaction week and every later week
in which the player starts carries a recorded positive point value. -/
theorem C5_amended_idiom_consistency (md : MatchupData) (rid : Nat)
    (pid : String) (w : Nat)
    (h0 : positivePointsAt md rid pid w = false)
    (h1 : ∀ wk ∈ weeksFrom (w + 1),
      startedAt md rid pid wk = true → positivePointsAt md rid pid wk = true) :
    (waiverPickupStats md rid pid w).1 =
      (tradeWeekScan md rid pid w (0, 0, 0)).1 +
        (tradeWeekScan md rid pid w (0, 0, 0)).2.1 ∧
    (waiverPickupStats md rid pid w).2 =
      (tradeWeekScan md rid pid w (0, 0, 0)).2.2 := by
  rw [waiverPickupStats_closed, tradeWeekScan_closed]
  have hfc : (weeksFrom (w + 1)).filter (startedAt md rid pid) =
      (weeksFrom (w + 1)).filter
        (fun wk => startedAt md rid pid wk && positivePointsAt md rid pid wk) := by
    refine filter_bool_congr _ _ _ fun wk hwk => ?_
    cases hsw : startedAt md rid pid wk with
    | false => simp
    | true => simp [h1 wk hwk hsw]
  by_cases hw : w < 19
  · have hz : posPointsAt md rid pid w = 0 :=
      posPointsAt_of_not_positive md rid pid w h0
    have hb : (startedAt md rid pid w && positivePointsAt md rid pid w) = false := by
      rw [h0, Bool.and_false]
    constructor
    · rw [lineupFromWeek, benchFromWeek, weeksFrom_cons w hw]
      simp only [List.map_cons, List.sum_cons]
      cases hsw : startedAt md rid pid w <;>
        simp [hz, (sum_ite_split (weeksFrom (w + 1)) (startedAt md rid pid)
          (posPointsAt md rid pid)).symm]
    · rw [startsFromWeek, weeksFrom_cons w hw, hfc]
      simp [List.filter_cons, hb]
  · have h1e : weeksFrom w = [] := weeksFrom_nil w (by omega)
    have h2e : weeksFrom (w + 1) = [] := weeksFrom_nil (w + 1) (by omega)
    simp [lineupFromWeek, benchFromWeek, startsFromWeek, h1e, h2e]

/-- C5 witness: on a season where the player has no data in the
transaction week (week 3), starts with 20 points in week 4 and is benched
with 8 points in week 5, the two idioms agree: the waiver idiom reports
(28, 1) and the trade idiom (20, 8, 1). -/
theorem C5_witness :
    ((waiverPickupStats mdC5 1 "P" 3).1 =
      (tradeWeekScan mdC5 1 "P" 3 (0, 0, 0)).1 +
        (tradeWeekScan mdC5 1 "P" 3 (0, 0, 0)).2.1 ∧
     (waiverPickupStats mdC5 1 "P" 3).2 =
      (tradeWeekScan mdC5 1 "P" 3 (0, 0, 0)).2.2) ∧
    waiverPickupStats mdC5 1 "P" 3 = (28, 1) := by
  refine ⟨C5_amended_idiom_consistency mdC5 1 "P" 3 (by decide) (by decide), ?_⟩
  have hr : weeksFrom 4 = [4, 5, 6, 7, 8, 9, 10, 11, 12, 13, 14, 15, 16, 17, 18] := by
    decide
  norm_num [waiverPickupStats, hr, waiverStep, lookupTeamWeek, mdC5, assocGet]

/-- C5 counterexample: when the player scores 20 points as a starter in the
transaction week itself, the waiver idiom reports 0 total points while the
trade idiom reports 20 lineup points — the trade idiom counts the
transaction week and the two idioms disagree. -/
theorem C5_counterexample_transaction_week :
    waiverPickupStats mdC5x 1 "P" 3 = (0, 0) ∧
    tradeWeekScan mdC5x 1 "P" 3 (0, 0, 0) = (20, 0, 1) ∧
    (waiverPickupStats mdC5x 1 "P" 3).1 ≠
      (tradeWeekScan mdC5x 1 "P" 3 (0, 0, 0)).1 +
        (tradeWeekScan mdC5x 1 "P" 3 (0, 0, 0)).2.1 := by
  have hr3 : weeksFrom 3 = [3, 4, 5, 6, 7, 8, 9, 10, 11, 12, 13, 14, 15, 16, 17, 18] := by
    decide
  have hr4 : weeksFrom 4 = [4, 5, 6, 7, 8, 9, 10, 11, 12, 13, 14, 15, 16, 17, 18] := by
    decide
  have h1 : waiverPickupStats mdC5x 1 "P" 3 = (0, 0) := by
    norm_num [waiverPickupStats, hr4, waiverStep, lookupTeamWeek, mdC5x, assocGet]
  have h2 : tradeWeekScan mdC5x 1 "P" 3 (0, 0, 0) = (20, 0, 1) := by
    norm_num [tradeWeekScan, hr3, tradeStep, lookupTeamWeek, mdC5x, assocGet]
  exact ⟨h1, h2, by rw [h1, h2]; norm_num⟩

/-! ## Claim C10: status filter of the transaction parser -/

theorem parseTrade_status (ru : List (Nat × String))
    (ul : List (String × String)) (cat : List (String × String))
    (t : SleeperTransaction) (td : TradeData)
    (h : parseTrade ru ul cat t = some td) : td.status = t.status := by
  unfold parseTrade at h
  by_cases hl : (dedupFirst (t.adds.map Prod.snd ++ t.drops.map Prod.snd)).length < 2
  · rw [if_pos hl] at h
    exact absurd h (by simp)
  · rw [if_neg hl] at h
    simp only [Option.some.injEq] at h
    rw [← h]

theorem parse_filter_statuses (ru : List (Nat × String))
    (ul : List (String × String)) (cat : List (String × String))
    (md : MatchupData) (ts : List SleeperTransaction) :
    parse_sleeper_transactions ru ul cat md ts =
      parse_sleeper_transactions ru ul cat md
        (ts.filter fun t => t.status ∈ admittedStatuses) := by
  induction ts with
  | nil => rfl
  | cons t ts ih =>
    by_cases hst : t.status ∈ admittedStatuses
    · rw [List.filter_cons_of_pos (by simpa using hst)]
      simp only [parse_sleeper_transactions]
      rw [if_neg (not_not_intro hst), if_neg (not_not_intro hst), ih]
    · rw [List.filter_cons_of_neg (by simpa using hst)]
      simp only [parse_sleeper_transactions]
      rw [if_pos hst, ih]

theorem parse_trades_statuses (ru : List (Nat × String))
    (ul : List (String × String)) (cat : List (String × String))
    (md : MatchupData) (ts : List SleeperTransaction) :
    ∀ td ∈ (parse_sleeper_transactions ru ul cat md ts).trades,
      td.status ∈ admittedStatuses := by
  induction ts with
  | nil => intro td h; simp [parse_sleeper_transactions] at h
  | cons t ts ih =>
    intro td h
    simp only [parse_sleeper_transactions] at h
    by_cases hst : t.status ∈ admittedStatuses
    · rw [if_neg (not_not_intro hst)] at h
      by_cases htr : t.ttype = "trade"
      · rw [if_pos htr] at h
        cases hpt : parseTrade ru ul cat t with
        | none => simp only [hpt] at h; exact ih td h
        | some td2 =>
          simp only [hpt, List.mem_cons] at h
          rcases h with h | h
          · rw [h, parseTrade_status ru ul cat t td2 hpt]
            exact hst
          · exact ih td h
      · rw [if_neg htr] at h
        by_cases hw : t.ttype = "waiver" ∨ t.ttype = "free_agent" ∨
            t.ttype = "commissioner"
        · rw [if_pos hw] at h
          exact ih td h
        · rw [if_neg hw] at h
          exact ih td h
    · rw [if_pos hst] at h
      exact ih td h

/-- C10: the transaction parser contributes a transaction to its outputs
only if its status is complete, approved or processed: parsing a
transaction list equals parsing the sublist of transactions with admitted
statuses, and every parsed trade carries an admitted status. -/
theorem C10_status_filter (ru : List (Nat × String))
    (ul : List (String × String)) (cat : List (String × String))
    (md : MatchupData) (ts : List SleeperTransaction) :
    parse_sleeper_transactions ru ul cat md ts =
      parse_sleeper_transactions ru ul cat md
        (ts.filter fun t => t.status ∈ admittedStatuses) ∧
    (∀ td ∈ (parse_sleeper_transactions ru ul cat md ts).trades,
      td.status ∈ admittedStatuses) :=
  ⟨parse_filter_statuses ru ul cat md ts, parse_trades_statuses ru ul cat md ts⟩

/-- C10 witness: a pending trade between two rosters contributes nothing —
parsing it alone yields the same (empty) output as parsing nothing. -/
theorem C10_witness :
    parse_sleeper_transactions [] [] [] []
        [{ ttype := "trade", status := "pending",
           adds := [("A", 1), ("B", 2)], drops := [], waiver_bid := 0,
           week := 1 }] =
      parse_sleeper_transactions [] [] [] [] [] ∧
    (parse_sleeper_transactions [] [] [] []
        [{ ttype := "trade", status := "pending",
           adds := [("A", 1), ("B", 2)], drops := [], waiver_bid := 0,
           week := 1 }]).trades = [] := by
  have h := C10_status_filter [] [] [] []
    [{ ttype := "trade", status := "pending",
       adds := [("A", 1), ("B", 2)], drops := [], waiver_bid := 0, week := 1 }]
  refine ⟨?_, ?_⟩
  · rw [h.1]; rfl
  · rw [h.1]; rfl

/-! ## Claim C8: trades among three or more teams -/

/-- C8: the parser truncates the roster set of a trade to its first two
members, so a completed trade among three rosters is parsed with a
two-entry team list and passes the app's `len(teams) != 2` guard — it is
valued by truncating the trade to two of its teams instead of being
reported as not attributable. -/
theorem C8_three_team_trade_attributed :
    dedupFirst (txC8.adds.map Prod.snd ++ txC8.drops.map Prod.snd) = [1, 2, 3] ∧
    (parse_sleeper_transactions [] [] [] [] [txC8]).trades.length = 1 ∧
    ∀ td ∈ (parse_sleeper_transactions [] [] [] [] [txC8]).trades,
      td.teams.length = 2 ∧ tradeAttributable td = true := by
  refine ⟨by decide, by decide, ?_⟩
  decide

/-! ## Claim C7: consolation tier separation by seed range -/

theorem optMem_true_iff (x : Option Nat) (l : List Nat) :
    optMem x l = true ↔ ∃ v, x = some v ∧ v ∈ l := by
  cases x <;> simp [optMem]

/-- C7: a record enters the toilet-bowl tier only if both participants'
seeds lie in [9, 12] and the middle tier only if both lie in [5, 8]; a
roster whose seed lies in one tier's range never participates in the other
tier's matchups. -/
theorem C7_tier_separation (sm : List (Nat × Nat)) (ms : List BracketMatchup) :
    (∀ mu ∈ toiletBowlFilter sm ms,
      (9 ≤ seedOrZero sm mu.t1 ∧ seedOrZero sm mu.t1 ≤ 12) ∧
      (9 ≤ seedOrZero sm mu.t2 ∧ seedOrZero sm mu.t2 ≤ 12)) ∧
    (∀ mu ∈ consolationFilter sm ms,
      (5 ≤ seedOrZero sm mu.t1 ∧ seedOrZero sm mu.t1 ≤ 8) ∧
      (5 ≤ seedOrZero sm mu.t2 ∧ seedOrZero sm mu.t2 ≤ 8)) ∧
    (∀ x s, assocGet x sm = some s → 9 ≤ s → s ≤ 12 →
      ∀ mu ∈ consolationFilter sm ms, mu.t1 ≠ some x ∧ mu.t2 ≠ some x) ∧
    (∀ x s, assocGet x sm = some s → 5 ≤ s → s ≤ 8 →
      ∀ mu ∈ toiletBowlFilter sm ms, mu.t1 ≠ some x ∧ mu.t2 ≠ some x) := by
  have htb : ∀ mu ∈ toiletBowlFilter sm ms,
      (9 ≤ seedOrZero sm mu.t1 ∧ seedOrZero sm mu.t1 ≤ 12) ∧
      (9 ≤ seedOrZero sm mu.t2 ∧ seedOrZero sm mu.t2 ≤ 12) := by
    intro mu hmu
    rw [toiletBowlFilter, List.mem_filter] at hmu
    simpa using hmu.2
  have hcn : ∀ mu ∈ consolationFilter sm ms,
      (5 ≤ seedOrZero sm mu.t1 ∧ seedOrZero sm mu.t1 ≤ 8) ∧
      (5 ≤ seedOrZero sm mu.t2 ∧ seedOrZero sm mu.t2 ≤ 8) := by
    intro mu hmu
    rw [consolationFilter, List.mem_filter] at hmu
    simpa using hmu.2
  refine ⟨htb, hcn, ?_, ?_⟩
  · intro x s hx h9 h12 mu hmu
    have hseeds := hcn mu hmu
    constructor
    · intro ht1
      have : seedOrZero sm mu.t1 = s := by
        rw [ht1, seedOrZero, seedOfOpt, hx]; rfl
      omega
    · intro ht2
      have : seedOrZero sm mu.t2 = s := by
        rw [ht2, seedOrZero, seedOfOpt, hx]; rfl
      omega
  · intro x s hx h5 h8 mu hmu
    have hseeds := htb mu hmu
    constructor
    · intro ht1
      have : seedOrZero sm mu.t1 = s := by
        rw [ht1, seedOrZero, seedOfOpt, hx]; rfl
      omega
    · intro ht2
      have : seedOrZero sm mu.t2 = s := by
        rw [ht2, seedOrZero, seedOfOpt, hx]; rfl
      omega

/-- C7 witness: on the identity seed map, the mixed-range record (6 v 9) is
excluded from both tiers, the 9 v 12 record lands only in the toilet bowl,
the 5 v 8 record only in the middle tier, and — by the theorem — the
seed-9 roster participates in no middle-tier matchup. -/
theorem C7_witness :
    (∀ mu ∈ consolationFilter smC7 msC7, mu.t1 ≠ some 9 ∧ mu.t2 ≠ some 9) ∧
    toiletBowlFilter smC7 msC7 =
      [{ m := 1, r := 1, t1 := some 9, t2 := some 12, w := some 9,
         l := some 12 }] ∧
    consolationFilter smC7 msC7 =
      [{ m := 2, r := 1, t1 := some 5, t2 := some 8, w := some 5,
         l := some 8 }] :=
  ⟨(C7_tier_separation smC7 msC7).2.2.1 9 9 (by decide) (by decide) (by decide),
   by decide, by decide⟩

/-! ## Claim C3: round-2 split of the lower tier -/

theorem foldl_classifyStep (W L : List Nat) (ms : List BracketMatchup) :
    ∀ acc, ms.foldl (classifyStep W L) acc =
      (acc.1 ++ ms.filter (bothIn W),
       acc.2 ++ ms.filter fun mu => !(bothIn W mu) && bothIn L mu) := by
  induction ms with
  | nil => intro acc; simp
  | cons mu ms ih =>
    intro acc
    rw [List.foldl_cons, ih]
    cases hw : bothIn W mu <;> cases hl : bothIn L mu <;>
      simp [classifyStep, List.filter_cons, hw, hl]

theorem foldl_selectStep_of_none (sel : BracketMatchup → Option Nat)
    (s : List Nat) (ms : List BracketMatchup)
    (h : ∀ mu ∈ ms, bothIn s mu = false) :
    ∀ acc, ms.foldl (selectStep sel s) acc = acc := by
  induction ms with
  | nil => intro acc; rfl
  | cons mu ms ih =>
    intro acc
    rw [List.foldl_cons, selectStep, if_neg (by simp [h mu (by simp)])]
    exact ih (fun x hx => h x (List.mem_cons_of_mem mu hx)) acc

theorem foldl_selectStep_unique (sel : BracketMatchup → Option Nat)
    (s : List Nat) (ms : List BracketMatchup) (mu : BracketMatchup) (x : Nat)
    (hcount : ms.countP (bothIn s) ≤ 1) (hmu : mu ∈ ms)
    (hb : bothIn s mu = true) (hx : sel mu = some x) :
    ∀ acc, ms.foldl (selectStep sel s) acc = some x := by
  induction ms with
  | nil => cases hmu
  | cons y ms ih =>
    intro acc
    rw [List.foldl_cons]
    by_cases hy : bothIn s y = true
    · have hc0 : ms.countP (bothIn s) = 0 := by
        have := List.countP_cons (bothIn s) y ms
        rw [List.countP_cons, if_pos hy] at hcount
        omega
      have hnone : ∀ z ∈ ms, bothIn s z = false := by
        intro z hz
        have := List.countP_eq_zero.mp hc0 z hz
        simpa using this
      have hmy : mu = y := by
        rcases List.mem_cons.mp hmu with h | h
        · exact h
        · exact absurd hb (by simp [hnone mu h])
      rw [foldl_selectStep_of_none sel s ms hnone]
      rw [selectStep, if_pos hy, ← hmy, hx]
    · have hyf : bothIn s y = false := by
        cases h : bothIn s y
        · rfl
        · exact absurd h hy
      have hmu' : mu ∈ ms := by
        rcases List.mem_cons.mp hmu with h | h
        · rw [h] at hb; exact absurd hb hy
        · exact h
      have hcount' : ms.countP (bothIn s) ≤ 1 := by
        rw [List.countP_cons, if_neg (by simp [hyf])] at hcount
        omega
      rw [selectStep, if_neg (by simp [hyf])]
      exact ih hcount' hmu' acc

/-- C3 (amended): provided no roster is recorded both as a winner and as a
loser of round-1 lower-tier matchups, and round 2 contains at most one
matchup between round-1 winners and at most one between round-1 losers:
every round-2 matchup between two round-1 winners is classified as the
tier championship and its recorded winner is the tier champion; every
round-2 matchup between two round-1 losers is classified as the last-place
game and its recorded loser is the toilet-bowl loser; a matchup mixing a
winner with a loser is dropped from both classifications. -/
theorem C3_amended_round2_partition (r1 ms : List BracketMatchup)
    (hdis : ∀ x, x ∈ round1WinnersOf r1 → x ∉ round1LosersOf r1)
    (hcw : ms.countP (bothIn (round1WinnersOf r1)) ≤ 1)
    (hcl : ms.countP (bothIn (round1LosersOf r1)) ≤ 1) :
    (∀ mu ∈ ms, bothIn (round1WinnersOf r1) mu = true →
      mu ∈ (classifyToiletBowlRound2 (round1WinnersOf r1) (round1LosersOf r1)
        ms).1) ∧
    (∀ mu ∈ ms, bothIn (round1LosersOf r1) mu = true →
      mu ∈ (classifyToiletBowlRound2 (round1WinnersOf r1) (round1LosersOf r1)
        ms).2) ∧
    (∀ mu ∈ ms, optMem mu.t1 (round1WinnersOf r1) = true →
      optMem mu.t2 (round1LosersOf r1) = true →
      mu ∉ (classifyToiletBowlRound2 (round1WinnersOf r1) (round1LosersOf r1)
        ms).1 ∧
      mu ∉ (classifyToiletBowlRound2 (round1WinnersOf r1) (round1LosersOf r1)
        ms).2) ∧
    (∀ mu ∈ ms, optMem mu.t1 (round1LosersOf r1) = true →
      optMem mu.t2 (round1WinnersOf r1) = true →
      mu ∉ (classifyToiletBowlRound2 (round1WinnersOf r1) (round1LosersOf r1)
        ms).1 ∧
      mu ∉ (classifyToiletBowlRound2 (round1WinnersOf r1) (round1LosersOf r1)
        ms).2) ∧
    (∀ mu ∈ ms, bothIn (round1WinnersOf r1) mu = true → ∀ w, mu.w = some w →
      toiletBowlChampion (round1WinnersOf r1) ms = some w) ∧
    (∀ mu ∈ ms, bothIn (round1LosersOf r1) mu = true → ∀ l, mu.l = some l →
      toiletBowlLastLoser (round1LosersOf r1) ms = some l) := by
  have hcls := foldl_classifyStep (round1WinnersOf r1) (round1LosersOf r1) ms
    ([], [])
  have hW : ∀ mu : BracketMatchup, bothIn (round1LosersOf r1) mu = true →
      bothIn (round1WinnersOf r1) mu = false := by
    intro mu hl
    cases hw : bothIn (round1WinnersOf r1) mu
    · rfl
    · rw [bothIn, Bool.and_eq_true, optMem_true_iff, optMem_true_iff] at hl hw
      obtain ⟨⟨v, hv, hvL⟩, _⟩ := hl
      obtain ⟨⟨v2, hv2, hv2W⟩, _⟩ := hw
      rw [hv] at hv2
      cases hv2
      exact absurd hvL (hdis v hv2W)
  constructor
  · intro mu hmu hbw
    rw [classifyToiletBowlRound2, hcls]
    simp [List.mem_filter, hmu, hbw]
  constructor
  · intro mu hmu hbl
    rw [classifyToiletBowlRound2, hcls]
    simp [List.mem_filter, hmu, hbl, hW mu hbl]
  constructor
  · intro mu hmu h1 h2
    have hnw : bothIn (round1WinnersOf r1) mu = false := by
      rw [bothIn]
      rw [optMem_true_iff] at h2
      obtain ⟨v, hv, hvL⟩ := h2
      have hvnW : v ∉ round1WinnersOf r1 := fun hvW => hdis v hvW hvL
      cases h : optMem mu.t2 (round1WinnersOf r1)
      · simp
      · rw [optMem_true_iff] at h
        obtain ⟨v2, hv2, hv2W⟩ := h
        rw [hv] at hv2
        cases hv2
        exact absurd hv2W hvnW
    have hnl : bothIn (round1LosersOf r1) mu = false := by
      rw [bothIn]
      rw [optMem_true_iff] at h1
      obtain ⟨v, hv, hvW⟩ := h1
      have hvnL : v ∉ round1LosersOf r1 := hdis v hvW
      cases h : optMem mu.t1 (round1LosersOf r1)
      · simp
      · rw [optMem_true_iff] at h
        obtain ⟨v2, hv2, hv2L⟩ := h
        rw [hv] at hv2
        cases hv2
        exact absurd hv2L hvnL
    rw [classifyToiletBowlRound2, hcls]
    constructor
    · simp [List.mem_filter, hnw]
    · simp [List.mem_filter, hnl]
  constructor
  · intro mu hmu h1 h2
    have hnw : bothIn (round1WinnersOf r1) mu = false := by
      rw [bothIn]
      rw [optMem_true_iff] at h1
      obtain ⟨v, hv, hvL⟩ := h1
      have hvnW : v ∉ round1WinnersOf r1 := fun hvW => hdis v hvW hvL
      cases h : optMem mu.t1 (round1WinnersOf r1)
      · simp
      · rw [optMem_true_iff] at h
        obtain ⟨v2, hv2, hv2W⟩ := h
        rw [hv] at hv2
        cases hv2
        exact absurd hv2W hvnW
    have hnl : bothIn (round1LosersOf r1) mu = false := by
      rw [bothIn]
      rw [optMem_true_iff] at h2
      obtain ⟨v, hv, hvW⟩ := h2
      have hvnL : v ∉ round1LosersOf r1 := hdis v hvW
      cases h : optMem mu.t2 (round1LosersOf r1)
      · simp [Bool.and_false]
      · rw [optMem_true_iff] at h
        obtain ⟨v2, hv2, hv2L⟩ := h
        rw [hv] at hv2
        cases hv2
        exact absurd hv2L hvnL
    rw [classifyToiletBowlRound2, hcls]
    constructor
    · simp [List.mem_filter, hnw]
    · simp [List.mem_filter, hnl]
  constructor
  · intro mu hmu hbw w hw
    exact foldl_selectStep_unique (fun mu => mu.w) (round1WinnersOf r1) ms mu w
      hcw hmu hbw hw none
  · intro mu hmu hbl l hl
    exact foldl_selectStep_unique (fun mu => mu.l) (round1LosersOf r1) ms mu l
      hcl hmu hbl hl none

/-- C3 witness: on the well-formed lower tier (9 beats 12, 10 beats 11;
round 2: 9 v 10 won by 9, 12 v 11 lost by 12) the partition applies, the
tier champion is roster 9 and the toilet-bowl loser is roster 12. -/
theorem C3_witness :
    toiletBowlChampion (round1WinnersOf r1C3w) ms2C3w = some 9 ∧
    toiletBowlLastLoser (round1LosersOf r1C3w) ms2C3w = some 12 ∧
    classifyToiletBowlRound2 (round1WinnersOf r1C3w) (round1LosersOf r1C3w)
        ms2C3w =
      ([{ m := 3, r := 2, t1 := some 9, t2 := some 10, w := some 9,
          l := some 10 }],
       [{ m := 4, r := 2, t1 := some 12, t2 := some 11, w := some 11,
          l := some 12 }]) := by
  have h := C3_amended_round2_partition r1C3w ms2C3w (by decide) (by decide)
    (by decide)
  refine ⟨?_, ?_, by decide⟩
  · exact h.2.2.2.2.1
      { m := 3, r := 2, t1 := some 9, t2 := some 10, w := some 9, l := some 10 }
      (by decide) (by decide) 9 rfl
  · exact h.2.2.2.2.2
      { m := 4, r := 2, t1 := some 12, t2 := some 11, w := some 11, l := some 12 }
      (by decide) (by decide) 12 rfl

/-- C3 counterexample: with two contradictory round-1 records both rosters
are simultaneously round-1 winners and round-1 losers; the round-2 record
between them has both participants in the loser set, yet the split
classifies it as the tier championship and the last-place list stays
empty — refuting the claim that every such matchup is classified as the
last-place game. -/
theorem C3_counterexample_contradictory_round1 :
    optMem (some 1) (round1LosersOf r1C3) = true ∧
    optMem (some 2) (round1LosersOf r1C3) = true ∧
    (classifyToiletBowlRound2 (round1WinnersOf r1C3) (round1LosersOf r1C3)
        ms2C3).2 = [] ∧
    (classifyToiletBowlRound2 (round1WinnersOf r1C3) (round1LosersOf r1C3)
        ms2C3).1 = ms2C3 := by
  decide

/-! ## Claims C6 and C9: seed assignment -/

theorem insertStanding_perm (x : Standing) (l : List Standing) :
    (insertStanding x l).Perm (x :: l) := by
  induction l with
  | nil => exact List.Perm.refl _
  | cons y ys ih =>
    unfold insertStanding
    by_cases h : keyLe y x = true
    · rw [if_pos h]
    · rw [if_neg h]
      exact (ih.cons y).trans (List.Perm.swap x y ys)

theorem sortStandings_perm (l : List Standing) : (sortStandings l).Perm l := by
  induction l with
  | nil => exact List.Perm.refl _
  | cons x xs ih =>
    exact (insertStanding_perm x (sortStandings xs)).trans (ih.cons x)

theorem sublist_insertStanding (x : Standing) (l : List Standing) :
    l.Sublist (insertStanding x l) := by
  induction l with
  | nil => exact List.nil_sublist _
  | cons y ys ih =>
    unfold insertStanding
    by_cases h : keyLe y x = true
    · rw [if_pos h]
      exact List.Sublist.cons x (List.Sublist.refl _)
    · rw [if_neg h]
      exact List.Sublist.cons₂ y ih

theorem insertStanding_before (x b : Standing) (l : List Standing)
    (hb : [b].Sublist l) (hkey : keyLe b x = true) :
    [x, b].Sublist (insertStanding x l) := by
  induction l with
  | nil => simp at hb
  | cons y ys ih =>
    unfold insertStanding
    by_cases h : keyLe y x = true
    · rw [if_pos h]
      exact List.Sublist.cons₂ x hb
    · rw [if_neg h]
      cases hb with
      | cons _ h' => exact List.Sublist.cons y (ih h')
      | cons₂ _ h' => exact absurd hkey h

theorem sortStandings_stable (l : List Standing) (a b : Standing)
    (hab : [a, b].Sublist l) (hkey : keyLe b a = true) :
    [a, b].Sublist (sortStandings l) := by
  induction l with
  | nil => simp at hab
  | cons c l ih =>
    cases hab with
    | cons _ h' =>
      exact (ih h').trans (sublist_insertStanding c (sortStandings l))
    | cons₂ _ h' =>
      refine insertStanding_before a b (sortStandings l) ?_ hkey
      rw [List.singleton_sublist] at h' ⊢
      exact (sortStandings_perm l).mem_iff.mpr h'

theorem dictInsert_not_mem (k v : Nat) (d : List (Nat × Nat))
    (h : ∀ p ∈ d, p.1 ≠ k) : dictInsert k v d = d ++ [(k, v)] := by
  induction d with
  | nil => rfl
  | cons p d ih =>
    rw [dictInsert, if_neg (h p (List.mem_cons_self p d))]
    rw [ih fun q hq => h q (List.mem_cons_of_mem p hq)]
    rfl

theorem foldl_dictInsert_nodup :
    ∀ (l acc : List (Nat × Nat)),
    (∀ p ∈ l, ∀ q ∈ acc, q.1 ≠ p.1) → (l.map Prod.fst).Nodup →
    l.foldl (fun acc p => dictInsert p.1 p.2 acc) acc = acc ++ l := by
  intro l
  induction l with
  | nil => intro acc _ _; simp
  | cons p l ih =>
    intro acc hdisj hnd
    rw [List.foldl_cons,
      dictInsert_not_mem p.1 p.2 acc fun q hq => hdisj p (List.mem_cons_self p l) q hq]
    rw [List.map_cons, List.nodup_cons] at hnd
    rw [ih (acc ++ [p]) ?_ hnd.2]
    · simp
    · intro x hx q hq
      rcases List.mem_append.mp hq with hq | hq
      · exact hdisj x (List.mem_cons_of_mem p hx) q hq
      · rcases List.mem_singleton.mp hq with rfl
        intro hpq
        exact hnd.1 (hpq ▸ List.mem_map_of_mem Prod.fst hx)

theorem seedPairs_map_snd : ∀ (l : List Standing) (i : Nat),
    (seedPairs i l).map Prod.snd = List.range' i l.length := by
  intro l
  induction l with
  | nil => intro i; rfl
  | cons s l ih =>
    intro i
    rw [seedPairs, List.map_cons, List.length_cons, List.range'_succ, ih (i + 1)]

theorem seedPairs_map_fst : ∀ (l : List Standing) (i : Nat),
    (seedPairs i l).map Prod.fst = l.map Standing.roster_id := by
  intro l
  induction l with
  | nil => intro i; rfl
  | cons s l ih =>
    intro i
    rw [seedPairs, List.map_cons, List.map_cons, ih (i + 1)]

theorem standingsOf_map_id (rosters : List RosterInfo) :
    (standingsOf rosters).map Standing.roster_id =
      rosters.map RosterInfo.roster_id := by
  simp only [standingsOf, List.map_map]
  rfl

theorem get_playoff_seeds_eq_seedPairs (rosters : List RosterInfo)
    (hlen : rosters.length ≤ 12)
    (hnd : (rosters.map RosterInfo.roster_id).Nodup) :
    get_playoff_seeds rosters =
      seedPairs 1 (sortStandings (standingsOf rosters)) := by
  have hperm : (sortStandings (standingsOf rosters)).Perm (standingsOf rosters) :=
    sortStandings_perm _
  have hids : ((sortStandings (standingsOf rosters)).map Standing.roster_id).Perm
      (rosters.map RosterInfo.roster_id) :=
    (hperm.map Standing.roster_id).trans (standingsOf_map_id rosters ▸ List.Perm.refl _)
  have hlen2 : (sortStandings (standingsOf rosters)).length = rosters.length := by
    rw [hperm.length_eq]
    simp [standingsOf]
  have htake : (sortStandings (standingsOf rosters)).take 12 =
      sortStandings (standingsOf rosters) :=
    List.take_of_length_le (by omega)
  have hndk : ((sortStandings (standingsOf rosters)).map Standing.roster_id).Nodup :=
    hids.nodup_iff.mpr hnd
  rw [get_playoff_seeds, htake,
    foldl_dictInsert_nodup _ [] (by simp) (by rw [seedPairs_map_fst]; exact hndk)]
  rfl

/-- C6 (amended): provided the season has at most twelve rosters and the
roster identifiers are distinct, the seed assignment is a bijection onto
{1..N} with N the roster count: the assigned seeds are exactly 1..N in
order and the seeded identifiers are a permutation of the roster
identifiers.  With more than twelve rosters the source seeds only the best
twelve. -/
theorem C6_amended_seed_bijection (rosters : List RosterInfo)
    (hlen : rosters.length ≤ 12)
    (hnd : (rosters.map RosterInfo.roster_id).Nodup) :
    (get_playoff_seeds rosters).map Prod.snd = List.range' 1 rosters.length ∧
    ((get_playoff_seeds rosters).map Prod.fst).Perm
      (rosters.map RosterInfo.roster_id) := by
  have hperm : (sortStandings (standingsOf rosters)).Perm (standingsOf rosters) :=
    sortStandings_perm _
  have hids : ((sortStandings (standingsOf rosters)).map Standing.roster_id).Perm
      (rosters.map RosterInfo.roster_id) :=
    (hperm.map Standing.roster_id).trans (standingsOf_map_id rosters ▸ List.Perm.refl _)
  have hlen2 : (sortStandings (standingsOf rosters)).length = rosters.length := by
    rw [hperm.length_eq]
    simp [standingsOf]
  rw [get_playoff_seeds_eq_seedPairs rosters hlen hnd]
  constructor
  · rw [seedPairs_map_snd, hlen2]
  · rw [seedPairs_map_fst]
    exact hids

/-- C6 witness: four rosters with strictly decreasing records receive the
seeds 1..4, a bijection; concretely the seed map is
[(1,1), (2,2), (3,3), (4,4)]. -/
theorem C6_witness :
    ((get_playoff_seeds rostersC6w).map Prod.snd =
      List.range' 1 rostersC6w.length ∧
     ((get_playoff_seeds rostersC6w).map Prod.fst).Perm
      (rostersC6w.map RosterInfo.roster_id)) ∧
    get_playoff_seeds rostersC6w = [(1, 1), (2, 2), (3, 3), (4, 4)] :=
  ⟨C6_amended_seed_bijection rostersC6w (by decide) (by decide), by decide⟩

/-- C6 counterexample: with thirteen rosters the seed assignment is not
total — only twelve seeds are handed out and the thirteenth roster gets
none, so the map is not a bijection onto {1..13}. -/
theorem C6_counterexample_thirteen_rosters :
    rostersC6.length = 13 ∧
    (get_playoff_seeds rostersC6).length = 12 ∧
    assocGet 13 (get_playoff_seeds rostersC6) = none := by
  decide

theorem seedPairs_get_of_mem : ∀ (l : List Standing) (j : Nat) (y : Standing),
    y ∈ l → ∃ sy, assocGet y.roster_id (seedPairs j l) = some sy ∧ j ≤ sy := by
  intro l
  induction l with
  | nil => intro j y h; cases h
  | cons c l ih =>
    intro j y hy
    by_cases hc : c.roster_id = y.roster_id
    · exact ⟨j, by rw [seedPairs, assocGet, if_pos hc], Nat.le_refl j⟩
    · have hy' : y ∈ l := by
        rcases List.mem_cons.mp hy with h | h
        · exact absurd (by rw [h]) hc
        · exact h
      obtain ⟨sy, h1, h2⟩ := ih (j + 1) y hy'
      exact ⟨sy, by rw [seedPairs, assocGet, if_neg hc]; exact h1, by omega⟩

theorem seedPairs_get_lt : ∀ (l : List Standing) (i : Nat) (x y : Standing),
    [x, y].Sublist l → (l.map Standing.roster_id).Nodup →
    ∃ sx sy, assocGet x.roster_id (seedPairs i l) = some sx ∧
      assocGet y.roster_id (seedPairs i l) = some sy ∧ sx < sy := by
  intro l
  induction l with
  | nil => intro i x y h; simp at h
  | cons c l ih =>
    intro i x y hsub hnd
    rw [List.map_cons, List.nodup_cons] at hnd
    cases hsub with
    | cons _ h' =>
      have hxid : c.roster_id ≠ x.roster_id := by
        intro he
        exact hnd.1 (he ▸ List.mem_map_of_mem Standing.roster_id
          (h'.subset (List.mem_cons_self x [y])))
      have hyid : c.roster_id ≠ y.roster_id := by
        intro he
        exact hnd.1 (he ▸ List.mem_map_of_mem Standing.roster_id
          (h'.subset (List.mem_cons_of_mem x (List.mem_cons_self y []))))
      obtain ⟨sx, sy, h1, h2, h3⟩ := ih (i + 1) x y h' hnd.2
      exact ⟨sx, sy, by rw [seedPairs, assocGet, if_neg hxid]; exact h1,
        by rw [seedPairs, assocGet, if_neg hyid]; exact h2, h3⟩
    | cons₂ _ h' =>
      have hyid : c.roster_id ≠ y.roster_id := by
        intro he
        exact hnd.1 (he ▸ List.mem_map_of_mem Standing.roster_id
          (List.singleton_sublist.mp h'))
      obtain ⟨sy, h1, h2⟩ := seedPairs_get_of_mem l (i + 1) y
        (List.singleton_sublist.mp h')
      refine ⟨i, sy, ?_, ?_, by omega⟩
      · rw [seedPairs, assocGet, if_pos rfl]
      · rw [seedPairs, assocGet, if_neg hyid]
        exact h1

/-- C9: seeding sorts by wins then points, both descending, and breaks full
ties by input order: if rosters a and b are tied on wins and points and a
appears before b in the input list (with at most twelve distinct-id
rosters so that both are seeded), then a receives a strictly smaller
(better) seed. -/
theorem C9_stable_tie_break (rosters : List RosterInfo) (a b : RosterInfo)
    (hsub : [a, b].Sublist rosters)
    (hlen : rosters.length ≤ 12)
    (hnd : (rosters.map RosterInfo.roster_id).Nodup)
    (hw : a.wins = b.wins) (hp : rosterPoints a = rosterPoints b) :
    ∃ sa sb, assocGet a.roster_id (get_playoff_seeds rosters) = some sa ∧
      assocGet b.roster_id (get_playoff_seeds rosters) = some sb ∧ sa < sb := by
  have hmap : [standingOfRoster a, standingOfRoster b].Sublist
      (standingsOf rosters) := by
    have := hsub.map standingOfRoster
    simpa [standingsOf] using this
  have hkey : keyLe (standingOfRoster b) (standingOfRoster a) = true := by
    simp [keyLe, standingOfRoster, hw, hp]
  have hstable := sortStandings_stable (standingsOf rosters)
    (standingOfRoster a) (standingOfRoster b) hmap hkey
  have hndk : ((sortStandings (standingsOf rosters)).map Standing.roster_id).Nodup := by
    have hperm : (sortStandings (standingsOf rosters)).Perm (standingsOf rosters) :=
      sortStandings_perm _
    have hids : ((sortStandings (standingsOf rosters)).map Standing.roster_id).Perm
        (rosters.map RosterInfo.roster_id) :=
      (hperm.map Standing.roster_id).trans
        (standingsOf_map_id rosters ▸ List.Perm.refl _)
    exact hids.nodup_iff.mpr hnd
  rw [get_playoff_seeds_eq_seedPairs rosters hlen hnd]
  obtain ⟨sa, sb, h1, h2, h3⟩ := seedPairs_get_lt
    (sortStandings (standingsOf rosters)) 1 (standingOfRoster a)
    (standingOfRoster b) hstable hndk
  exact ⟨sa, sb, h1, h2, h3⟩

/-- C9 witness: rosters 7 and 9 are tied on wins and points with roster 7
listed first; roster 7 receives seed 2 and roster 9 seed 3 (roster 2 with
the better record takes seed 1). -/
theorem C9_witness :
    (∃ sa sb, assocGet 7 (get_playoff_seeds rostersC9) = some sa ∧
      assocGet 9 (get_playoff_seeds rostersC9) = some sb ∧ sa < sb) ∧
    get_playoff_seeds rostersC9 = [(2, 1), (7, 2), (9, 3)] :=
  ⟨C9_stable_tie_break rostersC9 ⟨7, 5, 1000, 0⟩ ⟨9, 5, 1000, 0⟩
      (List.Sublist.cons₂ _ (List.Sublist.cons₂ _ (List.nil_sublist _)))
      (by decide) (by decide) rfl rfl,
   by decide⟩

/-- C9 counterexample: with thirteen rosters all tied on wins and points,
roster 12 (listed twelfth) receives seed 12 while roster 13 (listed
thirteenth, tied with it) receives no seed at all — so the tied
later-listed roster does not receive a larger seed, it receives none. -/
theorem C9_counterexample_beyond_twelve :
    (⟨12, 0, 0, 0⟩ : RosterInfo).wins = (⟨13, 0, 0, 0⟩ : RosterInfo).wins ∧
    rosterPoints ⟨12, 0, 0, 0⟩ = rosterPoints ⟨13, 0, 0, 0⟩ ∧
    assocGet 12 (get_playoff_seeds rostersC6) = some 12 ∧
    assocGet 13 (get_playoff_seeds rostersC6) = none := by
  decide

/-! ## Bracket builder infrastructure -/

theorem assocGet_append_left {α β : Type} [DecidableEq α] (k : α)
    (l1 l2 : List (α × β)) (v : β) (h : assocGet k l1 = some v) :
    assocGet k (l1 ++ l2) = some v := by
  induction l1 with
  | nil => simp [assocGet] at h
  | cons p l1 ih =>
    rw [assocGet] at h
    rw [List.cons_append, assocGet]
    by_cases hp : p.1 = k
    · rw [if_pos hp] at h ⊢; exact h
    · rw [if_neg hp] at h ⊢; exact ih h

theorem assocGet_append_right {α β : Type} [DecidableEq α] (k : α)
    (l1 l2 : List (α × β)) (h : assocGet k l1 = none) :
    assocGet k (l1 ++ l2) = assocGet k l2 := by
  induction l1 with
  | nil => rfl
  | cons p l1 ih =>
    rw [assocGet] at h
    rw [List.cons_append, assocGet]
    by_cases hp : p.1 = k
    · rw [if_pos hp] at h; exact absurd h (by simp)
    · rw [if_neg hp] at h ⊢; exact ih h

theorem assocGet_singleton_ne {α β : Type} [DecidableEq α] (k k2 : α) (v : β)
    (h : k2 ≠ k) : assocGet k [(k2, v)] = none := by
  rw [assocGet, if_neg h]
  rfl

theorem assocGet_mem {α β : Type} [DecidableEq α] (k : α) (l : List (α × β))
    (v : β) (h : assocGet k l = some v) : (k, v) ∈ l := by
  induction l with
  | nil => simp [assocGet] at h
  | cons p l ih =>
    rw [assocGet] at h
    by_cases hp : p.1 = k
    · rw [if_pos hp] at h
      simp only [Option.some.injEq] at h
      have hkv : (k, v) = p := by
        obtain ⟨p1, p2⟩ := p
        simp only at hp h
        rw [hp, h]
      rw [hkv]
      exact List.mem_cons_self p l
    · rw [if_neg hp] at h
      exact List.mem_cons_of_mem p (ih h)

theorem assocGet_map_eq {α : Type} (rounds : List Nat) (f : Nat → α) (j : Nat)
    (v : α) (h : assocGet j (rounds.map fun r => (r, f r)) = some v) :
    v = f j := by
  induction rounds with
  | nil => simp [assocGet] at h
  | cons r rounds ih =>
    rw [List.map_cons, assocGet] at h
    by_cases hr : r = j
    · rw [if_pos hr] at h
      simp only [Option.some.injEq] at h
      rw [← h, hr]
    · rw [if_neg hr] at h
      exact ih h

theorem insertAsc_perm (x : Nat) (l : List Nat) :
    (insertAsc x l).Perm (x :: l) := by
  induction l with
  | nil => exact List.Perm.refl _
  | cons y ys ih =>
    rw [insertAsc]
    by_cases h : x ≤ y
    · rw [if_pos h]
    · rw [if_neg h]
      exact (ih.cons y).trans (List.Perm.swap x y ys)

theorem sortAsc_perm (l : List Nat) : (sortAsc l).Perm l := by
  induction l with
  | nil => exact List.Perm.refl _
  | cons x xs ih =>
    exact (insertAsc_perm x (sortAsc xs)).trans (ih.cons x)

theorem insertAsc_sorted (x : Nat) (l : List Nat)
    (h : List.Pairwise (· ≤ ·) l) :
    List.Pairwise (· ≤ ·) (insertAsc x l) := by
  induction l with
  | nil => simp [insertAsc]
  | cons y ys ih =>
    rw [insertAsc]
    rw [List.pairwise_cons] at h
    by_cases hxy : x ≤ y
    · rw [if_pos hxy]
      rw [List.pairwise_cons]
      refine ⟨?_, List.pairwise_cons.mpr h⟩
      intro z hz
      rcases List.mem_cons.mp hz with rfl | hz
      · exact hxy
      · exact Nat.le_trans hxy (h.1 z hz)
    · rw [if_neg hxy]
      rw [List.pairwise_cons]
      refine ⟨?_, ih h.2⟩
      intro z hz
      have hz2 := (insertAsc_perm x ys).mem_iff.mp hz
      rcases List.mem_cons.mp hz2 with rfl | hz2
      · omega
      · exact h.1 z hz2

theorem sortAsc_sorted (l : List Nat) : List.Pairwise (· ≤ ·) (sortAsc l) := by
  induction l with
  | nil => simp [sortAsc]
  | cons x xs ih => exact insertAsc_sorted x (sortAsc xs) ih

theorem sortedRoundKeys_nodup (mbr : List (Nat × List BracketMatchup)) :
    (sortedRoundKeys mbr).Nodup :=
  (sortAsc_perm _).nodup_iff.mpr (List.nodup_dedup _)

theorem mem_sortedRoundKeys (mbr : List (Nat × List BracketMatchup)) (r : Nat) :
    r ∈ sortedRoundKeys mbr ↔ r ∈ mbr.map Prod.fst :=
  ((sortAsc_perm _).mem_iff).trans (List.mem_dedup)

theorem roundMatchups_nil (mbr : List (Nat × List BracketMatchup)) (r : Nat)
    (h : r ∉ mbr.map Prod.fst) : roundMatchups mbr r = [] := by
  rw [roundMatchups]
  have : assocGet r mbr = none := by
    induction mbr with
    | nil => rfl
    | cons p l ih =>
      rw [assocGet]
      rw [List.map_cons] at h
      rw [if_neg fun he => h (by rw [he]; exact List.mem_cons_self _ _)]
      exact ih fun hm => h (List.mem_cons_of_mem _ hm)
  rw [this]
  rfl

theorem roundResult_empty (sm : List (Nat × Nat))
    (mbr : List (Nat × List BracketMatchup)) (r : Nat)
    (h : r ∉ mbr.map Prod.fst) : (roundResult sm mbr r).2 = [] := by
  cases r with
  | zero => rw [roundResult, roundMatchups_nil mbr 0 h]; rfl
  | succ r =>
    cases r with
    | zero => rw [roundResult, roundMatchups_nil mbr 1 h]; rfl
    | succ r => rw [roundResult, roundMatchups_nil mbr (r + 2) h]; rfl

theorem roundResult_ge_two (sm : List (Nat × Nat))
    (mbr : List (Nat × List BracketMatchup)) (r : Nat) (h : 2 ≤ r) :
    roundResult sm mbr r =
      processLaterRound sm ((roundResult sm mbr (r - 1)).2.map Prod.snd)
        (roundMatchups mbr r) := by
  cases r with
  | zero => omega
  | succ r =>
    cases r with
    | zero => omega
    | succ r => rfl

theorem buildRounds_eq (sm : List (Nat × Nat))
    (mbr : List (Nat × List BracketMatchup)) :
    ∀ (rounds : List Nat) (winners : List (Nat × List (Nat × Nat))),
    List.Pairwise (· ≤ ·) rounds → rounds.Nodup →
    (∀ r ∈ rounds, assocGet r winners = none) →
    (∀ r ∈ rounds, 2 ≤ r → (r - 1) ∉ rounds →
      (assocGet (r - 1) winners).getD [] = (roundResult sm mbr (r - 1)).2) →
    buildRounds sm mbr rounds winners =
      rounds.map fun r => (r, (roundResult sm mbr r).1) := by
  intro rounds
  induction rounds with
  | nil => intro winners _ _ _ _; rfl
  | cons r0 rest ih =>
    intro winners hsort hnd hnone hprev
    rw [List.pairwise_cons] at hsort
    rw [List.nodup_cons] at hnd
    have hres : (if r0 = 1 then processRound1 sm (roundMatchups mbr r0)
        else processLaterRound sm
          (((assocGet (r0 - 1) winners).getD []).map Prod.snd)
          (roundMatchups mbr r0)) = roundResult sm mbr r0 := by
      by_cases h1 : r0 = 1
      · rw [if_pos h1, h1]
        rfl
      · rw [if_neg h1]
        by_cases h0 : r0 = 0
        · rw [h0]
          have hz : assocGet (0 - 1) winners = none := by
            have := hnone 0 (h0 ▸ List.mem_cons_self r0 rest)
            simpa using this
          rw [hz]
          rfl
        · have h2 : 2 ≤ r0 := by omega
          have hnotin : (r0 - 1) ∉ r0 :: rest := by
            intro hmem
            rcases List.mem_cons.mp hmem with he | hmem
            · omega
            · have := hsort.1 _ hmem
              omega
          have := hprev r0 (List.mem_cons_self r0 rest) h2 hnotin
          rw [this, roundResult_ge_two sm mbr r0 h2]
    rw [buildRounds, hres]
    have harg : (if r0 = 1 then processRound1 sm (roundMatchups mbr r0)
        else processLaterRound sm
          (((assocGet (r0 - 1) winners).getD []).map Prod.snd)
          (roundMatchups mbr r0)) = roundResult sm mbr r0 := hres
    rw [List.map_cons]
    refine congrArg (fun l => (r0, (roundResult sm mbr r0).1) :: l) ?_
    rw [ih (winners ++ [(r0, (roundResult sm mbr r0).2)]) hsort.2 hnd.2 ?_ ?_]
    · intro r hr
      have hne : r0 ≠ r := fun he => hnd.1 (he ▸ hr)
      rw [assocGet_append_right r winners [(r0, (roundResult sm mbr r0).2)]
        (hnone r (List.mem_cons_of_mem r0 hr))]
      exact assocGet_singleton_ne r r0 _ hne
    · intro r hr h2 hnotin
      by_cases hcase : r - 1 = r0
      · rw [assocGet_append_right (r - 1) winners _
          (by rw [hcase]; exact hnone r0 (List.mem_cons_self r0 rest))]
        rw [hcase, assocGet, if_pos rfl]
        rfl
      · have heq : assocGet (r - 1) (winners ++ [(r0, (roundResult sm mbr r0).2)]) =
            assocGet (r - 1) winners := by
          cases hv : assocGet (r - 1) winners with
          | none =>
            rw [assocGet_append_right (r - 1) winners _ hv]
            exact assocGet_singleton_ne (r - 1) r0 _ fun he => hcase (by omega)
          | some v => exact assocGet_append_left (r - 1) winners _ v hv
        rw [heq]
        refine hprev r (List.mem_cons_of_mem r0 hr) h2 ?_
        intro hmem
        rcases List.mem_cons.mp hmem with he | hmem
        · exact hcase (by omega)
        · exact hnotin hmem

theorem build_lookup_some (mbr : List (Nat × List BracketMatchup))
    (sm : List (Nat × Nat)) (j : Nat) (nodes : List BracketNode)
    (h : assocGet j (build_tournament_bracket mbr sm) = some nodes) :
    nodes = (roundResult sm mbr j).1 := by
  rw [build_tournament_bracket] at h
  by_cases hmt : mbr.isEmpty
  · rw [if_pos hmt] at h
    simp [assocGet] at h
  · rw [if_neg hmt] at h
    rw [buildRounds_eq sm mbr (sortedRoundKeys mbr) []
      (sortAsc_sorted _) (sortedRoundKeys_nodup mbr)
      (fun r _ => rfl) ?_] at h
    · exact (assocGet_map_eq (sortedRoundKeys mbr) _ j nodes h).symm ▸
        (assocGet_map_eq (sortedRoundKeys mbr) _ j nodes h)
    · intro r hr h2 hnotin
      have : (r - 1) ∉ mbr.map Prod.fst := fun hm =>
        hnotin ((mem_sortedRoundKeys mbr (r - 1)).mpr hm)
      rw [roundResult_empty sm mbr (r - 1) this]
      rfl

theorem dictInsert_values (k v : Nat) (d : List (Nat × Nat)) (x : Nat)
    (h : x ∈ (dictInsert k v d).map Prod.snd) :
    x = v ∨ x ∈ d.map Prod.snd := by
  induction d with
  | nil => simpa [dictInsert] using h
  | cons p d ih =>
    rw [dictInsert] at h
    by_cases hp : p.1 = k
    · rw [if_pos hp] at h
      rcases List.mem_cons.mp h with he | hm
      · exact Or.inl he
      · exact Or.inr (List.mem_cons_of_mem p.2 hm)
    · rw [if_neg hp] at h
      rcases List.mem_cons.mp h with he | hm
      · exact Or.inr (he ▸ List.mem_cons_self p.2 _)
      · rcases ih hm with he | hm2
        · exact Or.inl he
        · exact Or.inr (List.mem_cons_of_mem p.2 hm2)

theorem round1Node_winner (sm : List (Nat × Nat)) (s1 s2 : Nat)
    (mu : BracketMatchup) : (round1Node sm s1 s2 mu).winner_id = mu.w := by
  rw [round1Node]
  split <;> rfl

theorem processLaterGo_winners_inv (sm : List (Nat × Nat)) (prev : List Nat) :
    ∀ (ms : List BracketMatchup) (acc : List BracketNode × List (Nat × Nat)),
    (∀ w ∈ acc.2.map Prod.snd, ∃ n ∈ acc.1, n.winner_id = some w) →
    ∀ w ∈ (processLaterGo sm prev ms acc).2.map Prod.snd,
      ∃ n ∈ (processLaterGo sm prev ms acc).1, n.winner_id = some w := by
  intro ms
  induction ms with
  | nil => intro acc h; simpa [processLaterGo] using h
  | cons mu rest ih =>
    intro acc hinv
    simp only [processLaterGo]
    by_cases hc : (optMem mu.t1 prev && optMem mu.t2 prev) = true
    · rw [if_pos hc]
      apply ih
      intro w hw
      cases hmw : mu.w with
      | none =>
        rw [hmw] at hw
        obtain ⟨n, hn, hwn⟩ := hinv w hw
        exact ⟨n, List.mem_append_left _ hn, hwn⟩
      | some w2 =>
        rw [hmw] at hw
        rcases dictInsert_values mu.m w2 acc.2 w hw with rfl | hw2
        · exact ⟨laterNode sm mu, List.mem_append_right _ (by simp),
            by rw [laterNode, hmw]⟩
        · obtain ⟨n, hn, hwn⟩ := hinv w hw2
          exact ⟨n, List.mem_append_left _ hn, hwn⟩
    · rw [if_neg hc]
      exact ih acc hinv

theorem processRound1Go_winners_inv (sm : List (Nat × Nat))
    (ms : List BracketMatchup) :
    ∀ (ps : List (Nat × Nat)) (acc : List BracketNode × List (Nat × Nat)),
    (∀ w ∈ acc.2.map Prod.snd, ∃ n ∈ acc.1, n.winner_id = some w) →
    ∀ w ∈ (processRound1Go sm ms ps acc).2.map Prod.snd,
      ∃ n ∈ (processRound1Go sm ms ps acc).1, n.winner_id = some w := by
  intro ps
  induction ps with
  | nil => intro acc h; simpa [processRound1Go] using h
  | cons p ps ih =>
    intro acc hinv
    obtain ⟨s1, s2⟩ := p
    simp only [processRound1Go]
    cases hf : ms.find? (matchesPair sm s1 s2) with
    | none => exact ih acc hinv
    | some mu =>
      apply ih
      intro w hw
      cases hmw : mu.w with
      | none =>
        rw [hmw] at hw
        obtain ⟨n, hn, hwn⟩ := hinv w hw
        exact ⟨n, List.mem_append_left _ hn, hwn⟩
      | some w2 =>
        rw [hmw] at hw
        rcases dictInsert_values mu.m w2 acc.2 w hw with rfl | hw2
        · exact ⟨round1Node sm s1 s2 mu, List.mem_append_right _ (by simp),
            by rw [round1Node_winner, hmw]⟩
        · obtain ⟨n, hn, hwn⟩ := hinv w hw2
          exact ⟨n, List.mem_append_left _ hn, hwn⟩

theorem roundResult_winners (sm : List (Nat × Nat))
    (mbr : List (Nat × List BracketMatchup)) (r : Nat) :
    ∀ w ∈ (roundResult sm mbr r).2.map Prod.snd,
      ∃ n ∈ (roundResult sm mbr r).1, n.winner_id = some w := by
  cases r with
  | zero =>
    exact processLaterGo_winners_inv sm [] (roundMatchups mbr 0) ([], [])
      (by simp)
  | succ r =>
    cases r with
    | zero =>
      exact processRound1Go_winners_inv sm (roundMatchups mbr 1) expectedPairs
        ([], []) (by simp)
    | succ r =>
      exact processLaterGo_winners_inv sm _ (roundMatchups mbr (r + 2)) ([], [])
        (by simp)

theorem processLaterGo_nodes_src (sm : List (Nat × Nat)) (prev : List Nat) :
    ∀ (ms : List BracketMatchup) (acc : List BracketNode × List (Nat × Nat))
    (n : BracketNode), n ∈ (processLaterGo sm prev ms acc).1 →
    n ∈ acc.1 ∨ ∃ mu ∈ ms, n = laterNode sm mu ∧
      optMem mu.t1 prev = true ∧ optMem mu.t2 prev = true := by
  intro ms
  induction ms with
  | nil => intro acc n h; exact Or.inl (by simpa [processLaterGo] using h)
  | cons mu rest ih =>
    intro acc n hn
    simp only [processLaterGo] at hn
    by_cases hc : (optMem mu.t1 prev && optMem mu.t2 prev) = true
    · rw [if_pos hc] at hn
      rcases ih _ n hn with hmem | ⟨mu2, hmu2, he, h1, h2⟩
      · rcases List.mem_append.mp hmem with hmem | hmem
        · exact Or.inl hmem
        · rw [Bool.and_eq_true] at hc
          exact Or.inr ⟨mu, List.mem_cons_self mu rest,
            List.mem_singleton.mp hmem, hc.1, hc.2⟩
      · exact Or.inr ⟨mu2, List.mem_cons_of_mem mu hmu2, he, h1, h2⟩
    · rw [if_neg hc] at hn
      rcases ih acc n hn with hmem | ⟨mu2, hmu2, he, h1, h2⟩
      · exact Or.inl hmem
      · exact Or.inr ⟨mu2, List.mem_cons_of_mem mu hmu2, he, h1, h2⟩

theorem processRound1Go_nodes_src (sm : List (Nat × Nat))
    (ms : List BracketMatchup) :
    ∀ (ps : List (Nat × Nat)) (acc : List BracketNode × List (Nat × Nat))
    (n : BracketNode), n ∈ (processRound1Go sm ms ps acc).1 →
    n ∈ acc.1 ∨ ∃ s1 s2 mu, (s1, s2) ∈ ps ∧ mu ∈ ms ∧
      matchesPair sm s1 s2 mu = true ∧ n = round1Node sm s1 s2 mu := by
  intro ps
  induction ps with
  | nil => intro acc n h; exact Or.inl (by simpa [processRound1Go] using h)
  | cons p ps ih =>
    intro acc n hn
    obtain ⟨s1, s2⟩ := p
    simp only [processRound1Go] at hn
    cases hf : ms.find? (matchesPair sm s1 s2) with
    | none =>
      rw [hf] at hn
      rcases ih acc n hn with hmem | ⟨t1, t2, mu2, hp2, hmu2, hm2, he⟩
      · exact Or.inl hmem
      · exact Or.inr ⟨t1, t2, mu2, List.mem_cons_of_mem _ hp2, hmu2, hm2, he⟩
    | some mu =>
      rw [hf] at hn
      rcases ih _ n hn with hmem | ⟨t1, t2, mu2, hp2, hmu2, hm2, he⟩
      · rcases List.mem_append.mp hmem with hmem | hmem
        · exact Or.inl hmem
        · exact Or.inr ⟨s1, s2, mu, List.mem_cons_self _ _,
            List.mem_of_find?_eq_some hf, List.find?_some hf,
            List.mem_singleton.mp hmem⟩
      · exact Or.inr ⟨t1, t2, mu2, List.mem_cons_of_mem _ hp2, hmu2, hm2, he⟩

theorem roundResult_src (sm : List (Nat × Nat))
    (mbr : List (Nat × List BracketMatchup)) (r : Nat) (n : BracketNode)
    (hn : n ∈ (roundResult sm mbr r).1) :
    ∃ mu ∈ roundMatchups mbr r,
      ((n.team1_id = mu.t1 ∧ n.team2_id = mu.t2) ∨
       (n.team1_id = mu.t2 ∧ n.team2_id = mu.t1)) ∧ n.winner_id = mu.w := by
  have hlater : ∀ prev ms, n ∈ (processLaterRound sm prev ms).1 →
      ∃ mu ∈ ms,
        ((n.team1_id = mu.t1 ∧ n.team2_id = mu.t2) ∨
         (n.team1_id = mu.t2 ∧ n.team2_id = mu.t1)) ∧ n.winner_id = mu.w := by
    intro prev ms hmem
    rw [processLaterRound] at hmem
    rcases processLaterGo_nodes_src sm prev ms ([], []) n hmem with h | ⟨mu, hmu, he, _, _⟩
    · simp at h
    · exact ⟨mu, hmu, by rw [he, laterNode]; exact Or.inl ⟨rfl, rfl⟩,
        by rw [he, laterNode]⟩
  cases r with
  | zero => exact hlater [] (roundMatchups mbr 0) hn
  | succ r =>
    cases r with
    | zero =>
      rw [roundResult, processRound1] at hn
      rcases processRound1Go_nodes_src sm (roundMatchups mbr 1) expectedPairs
        ([], []) n hn with h | ⟨s1, s2, mu, _, hmu, _, he⟩
      · simp at h
      · refine ⟨mu, hmu, ?_, by rw [he, round1Node_winner]⟩
        rw [he, round1Node]
        split
        · exact Or.inl ⟨rfl, rfl⟩
        · exact Or.inr ⟨rfl, rfl⟩
    | succ r =>
      rw [roundResult] at hn
      exact hlater _ (roundMatchups mbr (r + 2)) hn

theorem roundResult_advance (sm : List (Nat × Nat))
    (mbr : List (Nat × List BracketMatchup)) (j : Nat) (h2 : 2 ≤ j) (x : Nat)
    (n : BracketNode) (hn : n ∈ (roundResult sm mbr j).1)
    (hp : nodeHasParticipant x n = true) :
    ∃ n2 ∈ (roundResult sm mbr (j - 1)).1, n2.winner_id = some x := by
  rw [roundResult_ge_two sm mbr j h2, processLaterRound] at hn
  rcases processLaterGo_nodes_src sm _ _ ([], []) n hn with h | ⟨mu, _, he, h1, hT2⟩
  · simp at h
  · have hor : mu.t1 = some x ∨ mu.t2 = some x := by
      rw [he, nodeHasParticipant, laterNode, Bool.or_eq_true] at hp
      rcases hp with hp | hp
      · exact Or.inl (by simpa using hp)
      · exact Or.inr (by simpa using hp)
    have hx : x ∈ (roundResult sm mbr (j - 1)).2.map Prod.snd := by
      rcases hor with hor | hor
      · rw [hor] at h1
        obtain ⟨v, hv, hvm⟩ := (optMem_true_iff _ _).mp h1
        cases hv
        exact hvm
      · rw [hor] at hT2
        obtain ⟨v, hv, hvm⟩ := (optMem_true_iff _ _).mp hT2
        cases hv
        exact hvm
    exact roundResult_winners sm mbr (j - 1) x hx

theorem bracketInput_round (mbr : List (Nat × List BracketMatchup))
    (hcons : bracketInputConsistent mbr = true) (r : Nat) :
    (∀ mu ∈ roundMatchups mbr r, winnerIsParticipant mu = true) ∧
    (∀ mu ∈ roundMatchups mbr r, ∀ w, mu.w = some w →
      ∀ mu3 ∈ roundMatchups mbr r, losesRecB w mu3 = false) := by
  rw [roundMatchups]
  cases hv : assocGet r mbr with
  | none =>
    constructor
    · intro mu hmu; simp at hmu
    · intro mu hmu; simp at hmu
  | some v =>
    have hvm : (r, v) ∈ mbr := assocGet_mem r mbr v hv
    rw [bracketInputConsistent, List.all_eq_true] at hcons
    have hrv := hcons (r, v) hvm
    rw [Bool.and_eq_true] at hrv
    obtain ⟨hwin, hnwl⟩ := hrv
    rw [List.all_eq_true] at hwin
    rw [roundNoWinLoss, List.all_eq_true] at hnwl
    constructor
    · intro mu hmu
      exact hwin mu (by simpa using hmu)
    · intro mu hmu w hw mu3 hmu3
      have hm := hnwl mu (by simpa using hmu)
      rw [hw] at hm
      rw [List.all_eq_true] at hm
      have := hm mu3 (by simpa using hmu3)
      rwa [Bool.not_eq_true'] at this

theorem loser_exclusion (sm : List (Nat × Nat))
    (mbr : List (Nat × List BracketMatchup))
    (hcons : bracketInputConsistent mbr = true) :
    ∀ j k x, 1 ≤ k → k < j →
    (∃ n ∈ (roundResult sm mbr k).1, nodeLoses x n = true) →
    ∀ n ∈ (roundResult sm mbr j).1, nodeHasParticipant x n = false := by
  intro j
  induction j using Nat.strong_induction_on with
  | _ j ih =>
    intro k x hk hkj hlose n hn
    cases hp : nodeHasParticipant x n with
    | false => rfl
    | true =>
      exfalso
      have h2 : 2 ≤ j := by omega
      obtain ⟨n2, hn2, hw2⟩ := roundResult_advance sm mbr j h2 x n hn hp
      obtain ⟨mu2, hmu2, hor2, hwin2⟩ := roundResult_src sm mbr (j - 1) n2 hn2
      have hmuw : mu2.w = some x := by rw [← hwin2, hw2]
      by_cases hcase : j - 1 = k
      · rw [hcase] at hmu2
        obtain ⟨nl, hnl, hloses⟩ := hlose
        obtain ⟨mul, hmul, horl, hwinl⟩ := roundResult_src sm mbr k nl hnl
        have hlosesd := hloses
        rw [nodeLoses, Bool.and_eq_true, Bool.and_eq_true] at hlosesd
        obtain ⟨⟨hA, hB⟩, hC⟩ := hlosesd
        rw [nodeHasParticipant] at hA
        rw [Bool.not_eq_true'] at hC
        have hlosrec : losesRecB x mul = true := by
          have h1 : (mul.t1 == some x || mul.t2 == some x) = true := by
            rcases horl with ⟨he1, he2⟩ | ⟨he1, he2⟩
            · rw [← he1, ← he2]; exact hA
            · rw [← he1, ← he2, Bool.or_comm]; exact hA
          rw [losesRecB, ← hwinl, h1, hB, hC]
          rfl
        have := (bracketInput_round mbr hcons k).2 mu2 hmu2 x hmuw mul hmul
        rw [hlosrec] at this
        exact absurd this (by simp)
      · have hwip := (bracketInput_round mbr hcons (j - 1)).1 mu2 hmu2
        rw [winnerIsParticipant, hmuw] at hwip
        have hpart2 : nodeHasParticipant x n2 = true := by
          rw [nodeHasParticipant]
          rcases hor2 with ⟨he1, he2⟩ | ⟨he1, he2⟩
          · rw [he1, he2]; exact hwip
          · rw [he1, he2, Bool.or_comm]; exact hwip
        have hfalse := ih (j - 1) (by omega) k x hk (by omega) hlose n2 hn2
        rw [hpart2] at hfalse
        exact absurd hfalse (by simp)

/-! ## Claim C1: losers never reach later rounds -/

/-- C1 (amended): provided every record's winner is one of its own
participants and no roster both wins and loses records of the same round
(which rules out stray duplicate records with contradictory outcomes), a
roster that appears as the loser of a structured node of round k ≥ 1 never
appears as a participant in any structured node of a later round of the
resolved championship bracket. -/
theorem C1_amended_loser_never_advances (sm : List (Nat × Nat))
    (mbr : List (Nat × List BracketMatchup))
    (hcons : bracketInputConsistent mbr = true) (k j x : Nat)
    (hk : 1 ≤ k) (hkj : k < j) (nk nj : List BracketNode)
    (hnk : assocGet k (build_tournament_bracket mbr sm) = some nk)
    (hnj : assocGet j (build_tournament_bracket mbr sm) = some nj)
    (hlose : ∃ n ∈ nk, nodeLoses x n = true) :
    ∀ n ∈ nj, nodeHasParticipant x n = false := by
  rw [build_lookup_some mbr sm k nk hnk] at hlose
  rw [build_lookup_some mbr sm j nj hnj]
  exact loser_exclusion sm mbr hcons j k x hk hkj hlose

/-- C1 witness: on the complete consistent bracket, roster 8 loses its
round-1 node and — by the theorem — participates in no semifinal node. -/
theorem C1_witness :
    (∃ n ∈ (assocGet 1 (build_tournament_bracket mbrC1 smC1)).getD [],
      nodeLoses 8 n = true) ∧
    ∀ n ∈ (assocGet 2 (build_tournament_bracket mbrC1 smC1)).getD [],
      nodeHasParticipant 8 n = false :=
  ⟨by decide,
   C1_amended_loser_never_advances smC1 mbrC1 (by decide) 1 2 8 (by decide)
     (by decide)
     ((assocGet 1 (build_tournament_bracket mbrC1 smC1)).getD [])
     ((assocGet 2 (build_tournament_bracket mbrC1 smC1)).getD [])
     (by decide) (by decide) (by decide)⟩

/-- C1 counterexample: with two stray duplicate semifinal records carrying
contradictory winners, roster 4 loses a structured semifinal node yet
participates in the structured final — losers can leak into later rounds
on raw data with duplicate records, contrary to the claim. -/
theorem C1_counterexample_duplicate_records :
    (∃ n ∈ (assocGet 2 (build_tournament_bracket mbrC1x smC1)).getD [],
      nodeLoses 4 n = true) ∧
    (∃ n ∈ (assocGet 3 (build_tournament_bracket mbrC1x smC1)).getD [],
      nodeHasParticipant 4 n = true) := by
  decide

/-! ## Claim C2: canonical round-1 pairing -/

theorem round1Node_seeds (sm : List (Nat × Nat)) (s1 s2 : Nat)
    (mu : BracketMatchup) :
    (round1Node sm s1 s2 mu).team1_seed = s1 ∧
    (round1Node sm s1 s2 mu).team2_seed = s2 := by
  rw [round1Node]
  split <;> exact ⟨rfl, rfl⟩

theorem round1Node_props (sm : List (Nat × Nat)) (s1 s2 : Nat)
    (mu : BracketMatchup) (hne : s1 ≠ s2)
    (hm : matchesPair sm s1 s2 mu = true) :
    seedOfOpt sm (round1Node sm s1 s2 mu).team1_id = some s1 ∧
    seedOfOpt sm (round1Node sm s1 s2 mu).team2_id = some s2 := by
  rw [matchesPair, Bool.or_eq_true, Bool.and_eq_true, Bool.and_eq_true] at hm
  rw [round1Node]
  by_cases hb : (seedOfOpt sm mu.t1 == some s1) = true
  · rw [if_pos hb]
    have h1 : seedOfOpt sm mu.t1 = some s1 := by simpa using hb
    rcases hm with ⟨_, h2⟩ | ⟨h2, _⟩
    · exact ⟨h1, by simpa using h2⟩
    · have h3 : seedOfOpt sm mu.t1 = some s2 := by simpa using h2
      rw [h1] at h3
      simp at h3
      exact absurd h3 hne
  · rw [if_neg hb]
    rcases hm with ⟨h1, h2⟩ | ⟨h1, h2⟩
    · exact absurd h1 hb
    · exact ⟨by simpa using h2, by simpa using h1⟩

theorem processRound1Go_seeds (sm : List (Nat × Nat))
    (ms : List BracketMatchup) :
    ∀ (ps : List (Nat × Nat)) (acc : List BracketNode × List (Nat × Nat)),
    ∃ new, (processRound1Go sm ms ps acc).1 = acc.1 ++ new ∧
      (new.map fun n => (n.team1_seed, n.team2_seed)).Sublist ps := by
  intro ps
  induction ps with
  | nil =>
    intro acc
    exact ⟨[], by simp [processRound1Go], List.nil_sublist _⟩
  | cons p ps ih =>
    intro acc
    obtain ⟨s1, s2⟩ := p
    simp only [processRound1Go]
    cases hf : ms.find? (matchesPair sm s1 s2) with
    | none =>
      obtain ⟨new, he, hsub⟩ := ih acc
      exact ⟨new, he, hsub.cons (s1, s2)⟩
    | some mu =>
      obtain ⟨new, he, hsub⟩ := ih (acc.1 ++ [round1Node sm s1 s2 mu],
        match mu.w with
        | some w => dictInsert mu.m w acc.2
        | none => acc.2)
      refine ⟨round1Node sm s1 s2 mu :: new, by rw [he]; simp, ?_⟩
      rw [List.map_cons, (round1Node_seeds sm s1 s2 mu).1,
        (round1Node_seeds sm s1 s2 mu).2]
      exact hsub.cons₂ (s1, s2)

theorem processRound1Go_complete (sm : List (Nat × Nat))
    (ms : List BracketMatchup) :
    ∀ (ps : List (Nat × Nat)) (acc : List BracketNode × List (Nat × Nat))
    (p : Nat × Nat), p ∈ ps →
    (∃ mu ∈ ms, matchesPair sm p.1 p.2 mu = true) →
    ∃ n ∈ (processRound1Go sm ms ps acc).1,
      n.team1_seed = p.1 ∧ n.team2_seed = p.2 := by
  intro ps
  induction ps with
  | nil => intro acc p hp; cases hp
  | cons q ps ih =>
    intro acc p hp hex
    obtain ⟨s1, s2⟩ := q
    simp only [processRound1Go]
    rcases List.mem_cons.mp hp with he | hp2
    · subst he
      cases hf : ms.find? (matchesPair sm s1 s2) with
      | none =>
        rw [List.find?_eq_none] at hf
        obtain ⟨mu, hmu, hm⟩ := hex
        exact absurd hm (by simpa using hf mu hmu)
      | some mu =>
        obtain ⟨new, he2, _⟩ := processRound1Go_seeds sm ms ps
          (acc.1 ++ [round1Node sm s1 s2 mu],
           match mu.w with
           | some w => dictInsert mu.m w acc.2
           | none => acc.2)
        refine ⟨round1Node sm s1 s2 mu, ?_, (round1Node_seeds sm s1 s2 mu).1,
          (round1Node_seeds sm s1 s2 mu).2⟩
        rw [he2]
        exact List.mem_append_left _ (List.mem_append_right _ (by simp))
    · cases hf : ms.find? (matchesPair sm s1 s2) with
      | none => exact ih acc p hp2 hex
      | some mu => exact ih _ p hp2 hex

theorem expectedPairs_lower : ∀ p ∈ expectedPairs, p.1 < p.2 := by decide

/-- C2 (amended): in round 1 the resolver emits, in the canonical order
(1v8), (4v5), (2v7), (3v6), one node per canonical seed pair for which a
record with exactly those participant seeds exists (in either order),
normalized so the lower seed is team1; every emitted node comes from an
input record with its winner preserved; and a pair with no matching record
is omitted from the structured round rather than reported as an unresolved
slot. -/
theorem C2_amended_round1_canonical (mbr : List (Nat × List BracketMatchup))
    (sm : List (Nat × Nat)) (nodes : List BracketNode)
    (h1 : assocGet 1 (build_tournament_bracket mbr sm) = some nodes) :
    ((nodes.map fun n => (n.team1_seed, n.team2_seed)).Sublist expectedPairs) ∧
    (∀ n ∈ nodes, seedOfOpt sm n.team1_id = some n.team1_seed ∧
      seedOfOpt sm n.team2_id = some n.team2_seed ∧
      n.team1_seed < n.team2_seed) ∧
    (∀ n ∈ nodes, ∃ mu ∈ roundMatchups mbr 1,
      ((n.team1_id = mu.t1 ∧ n.team2_id = mu.t2) ∨
       (n.team1_id = mu.t2 ∧ n.team2_id = mu.t1)) ∧ n.winner_id = mu.w) ∧
    (∀ p ∈ expectedPairs,
      (∃ mu ∈ roundMatchups mbr 1, matchesPair sm p.1 p.2 mu = true) →
      ∃ n ∈ nodes, n.team1_seed = p.1 ∧ n.team2_seed = p.2) := by
  have he := build_lookup_some mbr sm 1 nodes h1
  have hnodes : nodes =
      (processRound1Go sm (roundMatchups mbr 1) expectedPairs ([], [])).1 := by
    rw [he]
    rfl
  refine ⟨?_, ?_, ?_, ?_⟩
  · obtain ⟨new, he2, hsub⟩ := processRound1Go_seeds sm (roundMatchups mbr 1)
      expectedPairs ([], [])
    rw [hnodes, he2]
    simpa using hsub
  · intro n hn
    rw [hnodes] at hn
    rcases processRound1Go_nodes_src sm (roundMatchups mbr 1) expectedPairs
      ([], []) n hn with h | ⟨s1, s2, mu, hpair, _, hm, heq⟩
    · simp at h
    · have hlt : s1 < s2 := expectedPairs_lower (s1, s2) hpair
      have hprops := round1Node_props sm s1 s2 mu (by omega) hm
      have hseeds := round1Node_seeds sm s1 s2 mu
      rw [heq, hseeds.1, hseeds.2]
      exact ⟨hprops.1, hprops.2, hlt⟩
  · intro n hn
    rw [he] at hn
    exact roundResult_src sm mbr 1 n hn
  · intro p hp hex
    rw [hnodes]
    exact processRound1Go_complete sm (roundMatchups mbr 1) expectedPairs
      ([], []) p hp hex

/-- C2 witness: with all four canonical records present in scrambled order
(and some given higher-seed-first), round 1 resolves to exactly the four
canonical nodes in order (1v8), (4v5), (2v7), (3v6), lower seed first. -/
theorem C2_witness :
    ((((assocGet 1 (build_tournament_bracket mbrC2w smC2)).getD []).map
      fun n => (n.team1_seed, n.team2_seed)).Sublist expectedPairs) ∧
    (((assocGet 1 (build_tournament_bracket mbrC2w smC2)).getD []).map
      fun n => (n.team1_seed, n.team2_seed)) =
        [(1, 8), (4, 5), (2, 7), (3, 6)] :=
  ⟨(C2_amended_round1_canonical mbrC2w smC2
      ((assocGet 1 (build_tournament_bracket mbrC2w smC2)).getD [])
      (by decide)).1,
   by decide⟩

/-- C2 counterexample: partial input containing only the 1v8 record yields
a single round-1 slot — the three pairings without records are omitted,
not reported as unresolved slots, so the claimed four slots do not
appear. -/
theorem C2_counterexample_missing_pairs_omitted :
    assocGet 1 (build_tournament_bracket mbrC2x smC2) =
      some [{ team1_id := some 1, team2_id := some 8, team1_seed := 1,
              team2_seed := 8, winner_id := some 1, matchup_id := 1 }] ∧
    ((assocGet 1 (build_tournament_bracket mbrC2x smC2)).getD []).length = 1 := by
  decide

end FFL
